import Mathlib

/-!
Shallow embedding of the Inkling AI‑analysis pipeline
(`apps/api/src/modules/ai/ai.service.ts`, `ai.routes.ts`, and the unnamed
route variant) over the relational schema of `packages/db/src/schema.ts`.

Timestamps are modelled as a pair (day, millisecond‑of‑day); the JS call
`d.setHours(0,0,0,0)` corresponds to zeroing the millisecond component.
The external chat‑completion client is modelled by passing the parsed
model response as an explicit argument; each operation reports in
`modelCalled` whether the code path reaches the client call.
-/

namespace Inkling

/-- A point in time: calendar day plus milliseconds since that day's midnight. -/
structure Timestamp where
  day : Nat
  ms : Nat
  deriving DecidableEq, Repr

/-- `d.setHours(0, 0, 0, 0)`: same day, midnight. -/
def atMidnight (t : Timestamp) : Timestamp :=
  { day := t.day, ms := 0 }

/-- Row of `journal_entries`. -/
structure JournalEntry where
  id : Nat
  content : String
  date : Timestamp
  userId : String
  createdAt : Timestamp
  updatedAt : Timestamp
  deriving DecidableEq, Repr

/-- Row of `priorities` (`journalEntryId` is nullable). -/
structure Priority where
  id : Nat
  content : String
  date : Timestamp
  completed : Bool
  rank : Int
  journalEntryId : Option Nat
  userId : String
  createdAt : Timestamp
  updatedAt : Timestamp
  deriving DecidableEq, Repr

/-- Row of `context_entities` (`description` is a nullable text column). -/
structure ContextEntity where
  id : Nat
  type : String
  name : String
  description : Option String
  userId : String
  createdAt : Timestamp
  updatedAt : Timestamp
  deriving DecidableEq, Repr

/-- Row of `entity_relationships`. -/
structure EntityRelationship where
  id : Nat
  sourceEntityId : Nat
  targetEntityId : Nat
  relationshipType : String
  userId : String
  createdAt : Timestamp
  updatedAt : Timestamp
  deriving DecidableEq, Repr

/-- Row of `clarifying_questions` (`answer` nullable; `status` is the
varchar "pending" / "answered" / "dismissed"). -/
structure ClarifyingQuestion where
  id : Nat
  question : String
  answer : Option String
  status : String
  userId : String
  createdAt : Timestamp
  updatedAt : Timestamp
  deriving DecidableEq, Repr

/-- The relational store: one list per table, plus the serial‑id counters
the database would use for the tables the pipeline inserts into. -/
structure Store where
  journalEntries : List JournalEntry
  priorities : List Priority
  contextEntities : List ContextEntity
  entityRelationships : List EntityRelationship
  clarifyingQuestions : List ClarifyingQuestion
  nextPriorityId : Nat
  nextEntityId : Nat
  nextRelationshipId : Nat
  nextQuestionId : Nat
  deriving DecidableEq, Repr

/-- One item of the `priorities` array of a parsed model response. -/
structure PriorityItem where
  content : String
  rank : Int
  deriving DecidableEq, Repr

/-- One item of the `entities` array of a parsed entry‑analysis response
(a missing `description` is modelled as `""`, which the code treats the
same way: both are falsy in the update guard and both store `""`). -/
structure EntityItem where
  type : String
  name : String
  description : String
  deriving DecidableEq, Repr

/-- One item of the `relationships` array of a parsed entry‑analysis response. -/
structure RelationshipItem where
  sourceType : String
  sourceName : String
  relationshipType : String
  targetType : String
  targetName : String
  deriving DecidableEq, Repr

/-- One item of the `clarifyingQuestions` array of a parsed response. -/
structure QuestionItem where
  question : String
  deriving DecidableEq, Repr

/-- The parsed JSON of an entry‑analysis model response. -/
structure AnalysisResult where
  priorities : List PriorityItem
  entities : List EntityItem
  relationships : List RelationshipItem
  clarifyingQuestions : List QuestionItem
  deriving DecidableEq, Repr

/-- Outcome of `analyzeJournalEntry`: the value returned (or the thrown
error message), the store after all writes, and whether the OpenAI
client was invoked. -/
structure AnalyzeOutcome where
  result : Except String AnalysisResult
  store : Store
  modelCalled : Bool
  deriving Repr

/-- The initial guarded select:
`select from journalEntries where id = entryId and userId = userId limit 1`. -/
def findEntry (s : Store) (userId : String) (entryId : Nat) : Option JournalEntry :=
  (s.journalEntries.filter (fun e => e.id == entryId && e.userId == userId)).head?

/-- `select from contextEntities where userId and type and name limit 1`,
the lookup used both for entity dedup and for relationship endpoints. -/
def findEntityByKey (s : Store) (userId ty nm : String) : Option ContextEntity :=
  (s.contextEntities.filter
    (fun e => e.userId == userId && e.type == ty && e.name == nm)).head?

/-- Body of the priority‑insertion loop of `analyzeJournalEntry`:
`insert into priorities values {content, rank, date: today, userId,
journalEntryId: entry?.id || 0, completed: false}`.  (`entry?.id || 0`
always equals `entry.id`: the fallback fires only when the id is `0`.) -/
def insertPriority (userId : String) (entry : JournalEntry) (today now : Timestamp)
    (s : Store) (p : PriorityItem) : Store :=
  { s with
    priorities := s.priorities ++
      [{ id := s.nextPriorityId, content := p.content, date := today,
         completed := false, rank := p.rank, journalEntryId := some entry.id,
         userId := userId, createdAt := now, updatedAt := now }],
    nextPriorityId := s.nextPriorityId + 1 }

/-- Body of the entity loop of `analyzeJournalEntry`: look the entity up
by `(userId, type, name)`; insert when absent; when present, overwrite the
description and bump `updatedAt` only under
`entity.description && entity.description !== existing.description`. -/
def processEntity (now : Timestamp) (userId : String) (s : Store) (en : EntityItem) : Store :=
  match findEntityByKey s userId en.type en.name with
  | none =>
      { s with
        contextEntities := s.contextEntities ++
          [{ id := s.nextEntityId, type := en.type, name := en.name,
             description := some en.description, userId := userId,
             createdAt := now, updatedAt := now }],
        nextEntityId := s.nextEntityId + 1 }
  | some ex =>
      if en.description != "" && some en.description != ex.description then
        { s with
          contextEntities := s.contextEntities.map (fun e =>
            if e.id == ex.id then
              { e with description := some en.description, updatedAt := now }
            else e) }
      else s

/-- Body of the relationship loop of `analyzeJournalEntry`: resolve both
typed endpoints against the current entity table; when both resolve and no
identical `(userId, source, target, relationshipType)` edge exists, insert;
otherwise leave the store untouched. -/
def processRelationship (now : Timestamp) (userId : String) (s : Store)
    (rel : RelationshipItem) : Store :=
  let sourceEntity := findEntityByKey s userId rel.sourceType rel.sourceName
  let targetEntity := findEntityByKey s userId rel.targetType rel.targetName
  match sourceEntity, targetEntity with
  | some src, some tgt =>
      let existingRelationship := (s.entityRelationships.filter (fun er =>
        er.userId == userId && er.sourceEntityId == src.id &&
        er.targetEntityId == tgt.id &&
        er.relationshipType == rel.relationshipType)).head?
      match existingRelationship with
      | some _ => s
      | none =>
          { s with
            entityRelationships := s.entityRelationships ++
              [{ id := s.nextRelationshipId, sourceEntityId := src.id,
                 targetEntityId := tgt.id,
                 relationshipType := rel.relationshipType, userId := userId,
                 createdAt := now, updatedAt := now }],
            nextRelationshipId := s.nextRelationshipId + 1 }
  | _, _ => s

/-- Body of the clarifying‑question loop of `analyzeJournalEntry`: insert
as `pending` only when no row with the same `(userId, question)` exists. -/
def processQuestion (now : Timestamp) (userId : String) (s : Store) (q : QuestionItem) : Store :=
  match (s.clarifyingQuestions.filter (fun cq =>
      cq.userId == userId && cq.question == q.question)).head? with
  | some _ => s
  | none =>
      { s with
        clarifyingQuestions := s.clarifyingQuestions ++
          [{ id := s.nextQuestionId, question := q.question, answer := none,
             status := "pending", userId := userId,
             createdAt := now, updatedAt := now }],
        nextQuestionId := s.nextQuestionId + 1 }

/-- `aiService.analyzeJournalEntry`.  The context‑assembly selects are
read‑only and feed only the prompt, so they do not appear in the state
transition; `analysisResult` is the parsed model response.  The
`if (xs && xs.length > 0)` guards around each loop are the identity on
the empty list and are absorbed by the folds. -/
def analyzeJournalEntry (s : Store) (userId : String) (entryId : Nat)
    (now : Timestamp) (analysisResult : AnalysisResult) : AnalyzeOutcome :=
  match findEntry s userId entryId with
  | none => { result := .error "Journal entry not found", store := s, modelCalled := false }
  | some entry =>
      let today := atMidnight now
      let s1 := analysisResult.priorities.foldl (insertPriority userId entry today now) s
      let s2 := analysisResult.entities.foldl (processEntity now userId) s1
      let s3 := analysisResult.relationships.foldl (processRelationship now userId) s2
      let s4 := analysisResult.clarifyingQuestions.foldl (processQuestion now userId) s3
      { result := .ok analysisResult, store := s4, modelCalled := true }

/-- The parsed JSON of a daily‑summary model response. -/
structure SummaryResult where
  summary : String
  priorities : List PriorityItem
  deriving DecidableEq, Repr

/-- Body of the priority‑storage loop of `generateDailySummary`: skip the
item when its content is in the pre‑computed content set, else insert. -/
def insertSummaryPriority (userId : String) (date now : Timestamp)
    (existingContents : List String) (st : Store) (p : PriorityItem) : Store :=
  if existingContents.contains p.content then st
  else
    { st with
      priorities := st.priorities ++
        [{ id := st.nextPriorityId, content := p.content, date := date,
           completed := false, rank := p.rank, journalEntryId := none,
           userId := userId, createdAt := now, updatedAt := now }],
      nextPriorityId := st.nextPriorityId + 1 }

/-- `aiService.generateDailySummary`.  Both journal‑entry selects and both
priority selects carry only the `userId` condition — the date‑range
conditions are commented out in the source ("This is a simplified
version…") — so `entries` and the content set span all of the user's
rows regardless of date.  The content set is computed once, before the
insertion loop, and the inserted rows take the raw `date` argument. -/
def generateDailySummary (s : Store) (userId : String) (date : Timestamp)
    (now : Timestamp) (summary : SummaryResult) :
    SummaryResult × Store × Bool :=
  let entries := s.journalEntries.filter (fun e => e.userId == userId)
  if entries.isEmpty then
    ({ summary := "No journal entries for this date.", priorities := [] }, s, false)
  else
    let existingPriorities := s.priorities.filter (fun p => p.userId == userId)
    let existingContents := existingPriorities.map (fun p => p.content)
    let s' := summary.priorities.foldl
      (insertSummaryPriority userId date now existingContents) s
    (summary, s', true)

/-- Body of the insertion loop of `generateClarifyingQuestions`: insert
the proposed question as `pending` with no existence check, and collect
the `returning`‑ed row. -/
def insertGeneratedQuestion (userId : String) (now : Timestamp)
    (acc : List ClarifyingQuestion × Store) (q : QuestionItem) :
    List ClarifyingQuestion × Store :=
  let row : ClarifyingQuestion :=
    { id := acc.2.nextQuestionId, question := q.question, answer := none,
      status := "pending", userId := userId, createdAt := now, updatedAt := now }
  (acc.1 ++ [row],
   { acc.2 with
     clarifyingQuestions := acc.2.clarifyingQuestions ++ [row],
     nextQuestionId := acc.2.nextQuestionId + 1 })

/-- `aiService.generateClarifyingQuestions`.  The pending‑question select
is `where userId and status = "pending" limit 5`; when it is non‑empty the
function returns it at once.  Otherwise every question of the model
response is inserted as `pending` with no per‑question existence check,
and the inserted rows are returned. -/
def generateClarifyingQuestions (s : Store) (userId : String) (now : Timestamp)
    (questions : List QuestionItem) :
    List ClarifyingQuestion × Store × Bool :=
  let pendingQuestions := (s.clarifyingQuestions.filter (fun q =>
    q.userId == userId && q.status == "pending")).take 5
  if !pendingQuestions.isEmpty then
    (pendingQuestions, s, false)
  else
    let out := questions.foldl (insertGeneratedQuestion userId now) ([], s)
    (out.1, out.2, true)

/-- One item of the `newEntities` array of an answer‑analysis response. -/
structure NewEntityItem where
  type : String
  name : String
  description : String
  deriving DecidableEq, Repr

/-- One item of the `relationships` array of an answer‑analysis response
(untyped endpoints, matched by name only). -/
structure AnswerRelationshipItem where
  sourceEntityName : String
  targetEntityName : String
  relationshipType : String
  deriving DecidableEq, Repr

/-- One item of the `entityUpdates` array of an answer‑analysis response. -/
structure EntityUpdateItem where
  name : String
  type : String
  updatedDescription : String
  deriving DecidableEq, Repr

/-- The parsed JSON of an answer‑analysis model response. -/
structure EnhanceResult where
  newEntities : List NewEntityItem
  relationships : List AnswerRelationshipItem
  entityUpdates : List EntityUpdateItem
  deriving DecidableEq, Repr

/-- The `entityIdMap` of `enhanceContextFromAnswer`: a JS `Map` on which
only `set` and `get` are used, so latest‑set‑wins lookup. -/
def mapSet (m : List (String × Nat)) (k : String) (v : Nat) : List (String × Nat) :=
  (k, v) :: m

/-- `Map.get`: the most recently set binding for the key, if any. -/
def mapGet (m : List (String × Nat)) (k : String) : Option Nat :=
  (m.find? (fun kv => kv.1 == k)).map (fun kv => kv.2)

/-- JS truthiness of a `number | undefined` entity id: `undefined` and `0`
are falsy. -/
def truthyId : Option Nat → Option Nat
  | none => none
  | some n => if n == 0 then none else some n

/-- Body of the `newEntities` loop of `enhanceContextFromAnswer`: look up
in the fixed pre‑fetched `existingEntities` list by case‑insensitive name
and exact type; insert when absent and record the fresh id, otherwise
record the existing id. -/
def enhanceNewEntity (now : Timestamp) (userId : String)
    (existingEntities : List ContextEntity)
    (acc : List (String × Nat) × Store) (entity : NewEntityItem) :
    List (String × Nat) × Store :=
  match existingEntities.find? (fun e =>
      e.name.toLower == entity.name.toLower && e.type == entity.type) with
  | none =>
      let newId := acc.2.nextEntityId
      (mapSet acc.1 entity.name newId,
       { acc.2 with
         contextEntities := acc.2.contextEntities ++
           [{ id := newId, type := entity.type, name := entity.name,
              description := some entity.description, userId := userId,
              createdAt := now, updatedAt := now }],
         nextEntityId := newId + 1 })
  | some existingEntity => (mapSet acc.1 entity.name existingEntity.id, acc.2)

/-- Body of the `entityUpdates` loop of `enhanceContextFromAnswer`: find
the target in the fixed pre‑fetched list (case‑insensitive name, exact
type); when found, overwrite its description unconditionally, bump
`updatedAt`, and record its id. -/
def enhanceEntityUpdate (now : Timestamp)
    (existingEntities : List ContextEntity)
    (acc : List (String × Nat) × Store) (update : EntityUpdateItem) :
    List (String × Nat) × Store :=
  match existingEntities.find? (fun e =>
      e.name.toLower == update.name.toLower && e.type == update.type) with
  | none => acc
  | some existingEntity =>
      (mapSet acc.1 update.name existingEntity.id,
       { acc.2 with
         contextEntities := acc.2.contextEntities.map (fun e =>
           if e.id == existingEntity.id then
             { e with description := some update.updatedDescription, updatedAt := now }
           else e) })

/-- Body of the `relationships` loop of `enhanceContextFromAnswer`:
endpoint ids come from `entityIdMap`, falling back (on a falsy lookup) to
a case‑insensitive name‑only search of the pre‑fetched list; when both
ids are truthy, insert the edge.  The `.onConflictDoNothing()` on the
insert is inert: the table's only constraint is the primary key and the
inserted id is fresh. -/
def enhanceRelationship (now : Timestamp) (userId : String)
    (existingEntities : List ContextEntity) (entityIdMap : List (String × Nat))
    (s : Store) (relationship : AnswerRelationshipItem) : Store :=
  let sourceFromMap := truthyId (mapGet entityIdMap relationship.sourceEntityName)
  let sourceEntityId := match sourceFromMap with
    | some i => some i
    | none => (existingEntities.find? (fun e =>
        e.name.toLower == relationship.sourceEntityName.toLower)).map (fun e => e.id)
  let targetFromMap := truthyId (mapGet entityIdMap relationship.targetEntityName)
  let targetEntityId := match targetFromMap with
    | some i => some i
    | none => (existingEntities.find? (fun e =>
        e.name.toLower == relationship.targetEntityName.toLower)).map (fun e => e.id)
  match truthyId sourceEntityId, truthyId targetEntityId with
  | some si, some ti =>
      { s with
        entityRelationships := s.entityRelationships ++
          [{ id := s.nextRelationshipId, sourceEntityId := si, targetEntityId := ti,
             relationshipType := relationship.relationshipType, userId := userId,
             createdAt := now, updatedAt := now }],
        nextRelationshipId := s.nextRelationshipId + 1 }
  | _, _ => s

/-- `aiService.enhanceContextFromAnswer`.  `existingEntities` is fetched
once (`where userId limit 30`) and stays fixed through all three loops;
the `question` and `answer` arguments feed only the prompt. -/
def enhanceContextFromAnswer (s : Store) (userId : String)
    (question answer : String) (now : Timestamp) (analysis : EnhanceResult) :
    EnhanceResult × Store × Bool :=
  let existingEntities := (s.contextEntities.filter (fun e => e.userId == userId)).take 30
  let acc1 := analysis.newEntities.foldl
    (enhanceNewEntity now userId existingEntities) ([], s)
  let acc2 := analysis.entityUpdates.foldl
    (enhanceEntityUpdate now existingEntities) acc1
  let s3 := analysis.relationships.foldl
    (enhanceRelationship now userId existingEntities acc2.1) acc2.2
  (analysis, s3, true)

/-- `aiService.answerClarifyingQuestion`: update‑returning on
`(id, userId)`; throw "Question not found" when no row matched; otherwise
run the answer‑analysis pass over the updated store.  The returned row is
the first matched row, post‑update. -/
def answerClarifyingQuestion (s : Store) (userId : String) (questionId : Nat)
    (answer : String) (now : Timestamp) (analysis : EnhanceResult) :
    Except String ClarifyingQuestion × Store × Bool :=
  let matched := s.clarifyingQuestions.filter (fun q =>
    q.id == questionId && q.userId == userId)
  match matched.head? with
  | none => (.error "Question not found", s, false)
  | some q0 =>
      let updatedRow :=
        { q0 with answer := some answer, status := "answered", updatedAt := now }
      let s1 := { s with
        clarifyingQuestions := s.clarifyingQuestions.map (fun q =>
          if q.id == questionId && q.userId == userId then
            { q with answer := some answer, status := "answered", updatedAt := now }
          else q) }
      let enhanced := enhanceContextFromAnswer s1 userId q0.question answer now analysis
      (.ok updatedRow, enhanced.2.1, true)

/-- An HTTP response of a route handler: status code, the `error` field of
the JSON body when the handler answered with an error object, the store
after the request, and whether the model was invoked. -/
structure RouteOutcome where
  status : Nat
  errorBody : Option String
  store : Store
  modelCalled : Bool
  deriving Repr

/-- `POST /analyze-entry/:id` of `ai.routes.ts`: any thrown error is
caught and answered with status 500 and the fixed message. -/
def analyzeEntryRoute (s : Store) (userId : String) (id : Nat)
    (now : Timestamp) (analysisResult : AnalysisResult) : RouteOutcome :=
  let out := analyzeJournalEntry s userId id now analysisResult
  match out.result with
  | .ok _ => { status := 200, errorBody := none, store := out.store,
               modelCalled := out.modelCalled }
  | .error _ => { status := 500, errorBody := some "Failed to analyze journal entry",
                  store := out.store, modelCalled := out.modelCalled }

/-- `POST /analyze/:id` of the unnamed route variant: any thrown error is
caught and answered with status 404 carrying the thrown message. -/
def analyzeRoute (s : Store) (userId : String) (id : Nat)
    (now : Timestamp) (analysisResult : AnalysisResult) : RouteOutcome :=
  let out := analyzeJournalEntry s userId id now analysisResult
  match out.result with
  | .ok _ => { status := 200, errorBody := none, store := out.store,
               modelCalled := out.modelCalled }
  | .error msg => { status := 404, errorBody := some msg,
                    store := out.store, modelCalled := out.modelCalled }

/-! ### Auxiliary definitions used by the theorems -/

/-- The rows the question‑generation path inserts for a response, given
the serial counter at the start of the loop. -/
def mkQuestionRows (u : String) (now : Timestamp) :
    List QuestionItem → Nat → List ClarifyingQuestion
  | [], _ => []
  | q :: qs, nid =>
      { id := nid, question := q.question, answer := none, status := "pending",
        userId := u, createdAt := now, updatedAt := now }
        :: mkQuestionRows u now qs (nid + 1)

/-- The rows the daily‑summary path inserts for a response: one per
priority item whose content is not in the pre‑computed content set. -/
def summaryRows (u : String) (date now : Timestamp) (existingContents : List String) :
    List PriorityItem → Nat → List Priority
  | [], _ => []
  | p :: ps, nid =>
      if existingContents.contains p.content then
        summaryRows u date now existingContents ps nid
      else
        { id := nid, content := p.content, date := date, completed := false,
          rank := p.rank, journalEntryId := none, userId := u,
          createdAt := now, updatedAt := now }
          :: summaryRows u date now existingContents ps (nid + 1)

/-- The five tables of a store, with the serial counters stripped. -/
structure TableView where
  journalEntries : List JournalEntry
  priorities : List Priority
  contextEntities : List ContextEntity
  entityRelationships : List EntityRelationship
  clarifyingQuestions : List ClarifyingQuestion
  deriving DecidableEq, Repr

/-- All rows belonging to users other than `u`. -/
def othersOf (u : String) (s : Store) : TableView :=
  { journalEntries := s.journalEntries.filter (fun r => r.userId != u),
    priorities := s.priorities.filter (fun r => r.userId != u),
    contextEntities := s.contextEntities.filter (fun r => r.userId != u),
    entityRelationships := s.entityRelationships.filter (fun r => r.userId != u),
    clarifyingQuestions := s.clarifyingQuestions.filter (fun r => r.userId != u) }

/-- The store as user `u` sees it: only `u`'s rows, counters untouched. -/
def restrictTo (u : String) (s : Store) : Store :=
  { journalEntries := s.journalEntries.filter (fun r => r.userId == u),
    priorities := s.priorities.filter (fun r => r.userId == u),
    contextEntities := s.contextEntities.filter (fun r => r.userId == u),
    entityRelationships := s.entityRelationships.filter (fun r => r.userId == u),
    clarifyingQuestions := s.clarifyingQuestions.filter (fun r => r.userId == u),
    nextPriorityId := s.nextPriorityId, nextEntityId := s.nextEntityId,
    nextRelationshipId := s.nextRelationshipId, nextQuestionId := s.nextQuestionId }

/-- Database well‑formedness of the entity table: primary keys are unique
and the serial counter is ahead of every existing id. -/
def EntityTableOk (s : Store) : Prop :=
  (s.contextEntities.map (fun e => e.id)).Nodup ∧
    ∀ e ∈ s.contextEntities, e.id < s.nextEntityId

instance (s : Store) : Decidable (EntityTableOk s) := by
  unfold EntityTableOk; infer_instance

/-! ### Concrete rows, stores and responses for counterexamples and witnesses -/

/-- Entry used in the concrete counterexamples: user `"u"`, dated day 5. -/
def entryA : JournalEntry :=
  { id := 1, content := "Met with Alex about the Atlas launch",
    date := ⟨5, 0⟩, userId := "u", createdAt := ⟨5, 0⟩, updatedAt := ⟨5, 0⟩ }

/-- A store holding only `entryA`. -/
def storeC1 : Store :=
  { journalEntries := [entryA], priorities := [], contextEntities := [],
    entityRelationships := [], clarifyingQuestions := [],
    nextPriorityId := 1, nextEntityId := 1, nextRelationshipId := 1,
    nextQuestionId := 1 }

/-- An entry‑analysis response carrying one priority and nothing else. -/
def respC1 : AnalysisResult :=
  { priorities := [{ content := "Finalize Atlas pricing", rank := 1 }],
    entities := [], relationships := [], clarifyingQuestions := [] }

/-- An existing context entity of user `"u"`. -/
def entityAlex : ContextEntity :=
  { id := 3, type := "person", name := "Alex", description := some "Engineer",
    userId := "u", createdAt := ⟨1, 0⟩, updatedAt := ⟨1, 0⟩ }

/-- A store in which `entityAlex` already exists. -/
def storeC2 : Store :=
  { journalEntries := [entryA], priorities := [], contextEntities := [entityAlex],
    entityRelationships := [], clarifyingQuestions := [],
    nextPriorityId := 1, nextEntityId := 4, nextRelationshipId := 1,
    nextQuestionId := 1 }

/-- An extracted entity whose key matches `entityAlex` but whose
description differs. -/
def enC2 : EntityItem :=
  { type := "person", name := "Alex", description := "CTO of Atlas" }

/-- A store in which the question text "Q1" already exists, answered, so
the generation path's pending short‑circuit does not fire. -/
def storeC4 : Store :=
  { journalEntries := [entryA], priorities := [], contextEntities := [],
    entityRelationships := [],
    clarifyingQuestions :=
      [{ id := 1, question := "Q1", answer := some "A1", status := "answered",
         userId := "u", createdAt := ⟨1, 0⟩, updatedAt := ⟨1, 0⟩ }],
    nextPriorityId := 1, nextEntityId := 1, nextRelationshipId := 1,
    nextQuestionId := 2 }

/-- An entry‑analysis response proposing the already existing question. -/
def respC4 : AnalysisResult :=
  { priorities := [], entities := [], relationships := [],
    clarifyingQuestions := [{ question := "Q1" }] }

/-- A single pending question row with the given id. -/
def pendingQ (i : Nat) : ClarifyingQuestion :=
  { id := i, question := "Q" ++ toString i, answer := none, status := "pending",
    userId := "u", createdAt := ⟨1, 0⟩, updatedAt := ⟨1, 0⟩ }

/-- A store with six pending questions for user `"u"`. -/
def storeC5 : Store :=
  { journalEntries := [], priorities := [], contextEntities := [],
    entityRelationships := [],
    clarifyingQuestions :=
      [pendingQ 1, pendingQ 2, pendingQ 3, pendingQ 4, pendingQ 5, pendingQ 6],
    nextPriorityId := 1, nextEntityId := 1, nextRelationshipId := 1,
    nextQuestionId := 7 }

/-- A store with one pending question for user `"u"`. -/
def storeC6 : Store :=
  { journalEntries := [], priorities := [], contextEntities := [],
    entityRelationships := [], clarifyingQuestions := [pendingQ 1],
    nextPriorityId := 1, nextEntityId := 1, nextRelationshipId := 1,
    nextQuestionId := 2 }

/-- An answer‑analysis response with no extractions. -/
def emptyEnhance : EnhanceResult :=
  { newEntities := [], relationships := [], entityUpdates := [] }

/-- A store whose only priority for user `"u"` has content "X" dated day 3. -/
def storeC7 : Store :=
  { journalEntries := [entryA],
    priorities :=
      [{ id := 1, content := "X", date := ⟨3, 0⟩, completed := false, rank := 1,
         journalEntryId := none, userId := "u", createdAt := ⟨3, 0⟩,
         updatedAt := ⟨3, 0⟩ }],
    contextEntities := [], entityRelationships := [], clarifyingQuestions := [],
    nextPriorityId := 2, nextEntityId := 1, nextRelationshipId := 1,
    nextQuestionId := 1 }

/-- A daily‑summary response re‑proposing the content "X". -/
def respC7 : SummaryResult :=
  { summary := "Day recap", priorities := [{ content := "X", rank := 1 }] }

/-- The empty store. -/
def storeEmpty : Store :=
  { journalEntries := [], priorities := [], contextEntities := [],
    entityRelationships := [], clarifyingQuestions := [],
    nextPriorityId := 1, nextEntityId := 1, nextRelationshipId := 1,
    nextQuestionId := 1 }

/-- A populated two‑user store exercised by the scoping witness. -/
def storeC9 : Store :=
  { journalEntries :=
      [entryA,
       { id := 2, content := "Other user entry", date := ⟨6, 0⟩, userId := "v",
         createdAt := ⟨6, 0⟩, updatedAt := ⟨6, 0⟩ }],
    priorities :=
      [{ id := 1, content := "X", date := ⟨3, 0⟩, completed := false, rank := 1,
         journalEntryId := none, userId := "v", createdAt := ⟨3, 0⟩,
         updatedAt := ⟨3, 0⟩ }],
    contextEntities :=
      [entityAlex,
       { id := 5, type := "person", name := "Alex", description := some "Other Alex",
         userId := "v", createdAt := ⟨1, 0⟩, updatedAt := ⟨1, 0⟩ }],
    entityRelationships := [], clarifyingQuestions := [pendingQ 1],
    nextPriorityId := 2, nextEntityId := 6, nextRelationshipId := 1,
    nextQuestionId := 2 }

/-- An entry‑analysis response touching every table. -/
def respC9 : AnalysisResult :=
  { priorities := [{ content := "Finalize Atlas pricing", rank := 1 }],
    entities := [{ type := "person", name := "Alex", description := "CTO" },
                 { type := "project", name := "Atlas", description := "Launch" }],
    relationships := [{ sourceType := "person", sourceName := "Alex",
                        relationshipType := "works_on", targetType := "project",
                        targetName := "Atlas" }],
    clarifyingQuestions := [{ question := "Q2" }] }

/-- An answer‑analysis response touching every table it can. -/
def enhanceC9 : EnhanceResult :=
  { newEntities := [{ type := "project", name := "Atlas", description := "Launch" }],
    relationships := [{ sourceEntityName := "alex", targetEntityName := "Atlas",
                        relationshipType := "works_on" }],
    entityUpdates := [{ name := "ALEX", type := "person",
                        updatedDescription := "CTO of Atlas" }] }

/-! ### Generic fold lemmas -/

/-- A projection left fixed by every step of a fold is fixed by the fold. -/
theorem foldl_proj_const {σ α β : Type} (proj : σ → β) (f : σ → α → σ)
    (h : ∀ s a, proj (f s a) = proj s) :
    ∀ (l : List α) (s : σ), proj (l.foldl f s) = proj s := by
  intro l
  induction l with
  | nil => intro s; rfl
  | cons a l ih => intro s; rw [List.foldl_cons, ih, h]

/-- The entity phase never touches the `priorities` table. -/
theorem processEntity_priorities (now : Timestamp) (u : String) (s : Store)
    (en : EntityItem) : (processEntity now u s en).priorities = s.priorities := by
  unfold processEntity
  split
  · rfl
  · split <;> rfl

/-- The relationship phase never touches the `priorities` table. -/
theorem processRelationship_priorities (now : Timestamp) (u : String) (s : Store)
    (rel : RelationshipItem) :
    (processRelationship now u s rel).priorities = s.priorities := by
  unfold processRelationship
  dsimp only
  split
  · split <;> rfl
  · rfl

/-- The question phase never touches the `priorities` table. -/
theorem processQuestion_priorities (now : Timestamp) (u : String) (s : Store)
    (q : QuestionItem) : (processQuestion now u s q).priorities = s.priorities := by
  unfold processQuestion
  split <;> rfl

/-- The priority‑insertion fold appends exactly one row per response item,
each row stamped with the entry's id, the given priority date, and the
requesting user. -/
theorem foldl_insertPriority_spec (u : String) (entry : JournalEntry)
    (today now : Timestamp) :
    ∀ (ps : List PriorityItem) (s : Store),
      ∃ rows : List Priority,
        (ps.foldl (insertPriority u entry today now) s).priorities
          = s.priorities ++ rows ∧
        rows.length = ps.length ∧
        rows.map (fun r => (r.content, r.rank)) = ps.map (fun p => (p.content, p.rank)) ∧
        ∀ r ∈ rows, r.journalEntryId = some entry.id ∧ r.date = today ∧ r.userId = u := by
  intro ps
  induction ps with
  | nil => intro s; exact ⟨[], by simp⟩
  | cons p ps ih =>
      intro s
      obtain ⟨rows, h1, h2, h3, h4⟩ := ih (insertPriority u entry today now s p)
      refine ⟨{ id := s.nextPriorityId, content := p.content, date := today,
                completed := false, rank := p.rank, journalEntryId := some entry.id,
                userId := u, createdAt := now, updatedAt := now } :: rows, ?_, ?_, ?_, ?_⟩
      · rw [List.foldl_cons, h1]
        simp [insertPriority]
      · simp [h2]
      · simp [h3]
      · intro r hr
        rcases List.mem_cons.mp hr with hr | hr
        · subst hr; exact ⟨rfl, rfl, rfl⟩
        · exact h4 r hr

/-- C1, amended: for a valid entry‑analysis response with N priorities,
`analyzeJournalEntry` appends exactly N new priority rows, each carrying
the triggering entry's id in `journalEntryId` and each dated to midnight
of the analysis day (`today`), not to the entry's own date. -/
theorem analyze_inserts_n_priorities (s : Store) (userId : String) (entryId : Nat)
    (now : Timestamp) (resp : AnalysisResult) (entry : JournalEntry)
    (hfind : findEntry s userId entryId = some entry) :
    ∃ newRows : List Priority,
      (analyzeJournalEntry s userId entryId now resp).store.priorities
        = s.priorities ++ newRows ∧
      newRows.length = resp.priorities.length ∧
      newRows.map (fun r => (r.content, r.rank))
        = resp.priorities.map (fun p => (p.content, p.rank)) ∧
      ∀ r ∈ newRows, r.journalEntryId = some entry.id ∧
        r.date = atMidnight now ∧ r.userId = userId := by
  obtain ⟨rows, h1, h2, h3, h4⟩ :=
    foldl_insertPriority_spec userId entry (atMidnight now) now resp.priorities s
  refine ⟨rows, ?_, h2, h3, h4⟩
  unfold analyzeJournalEntry
  rw [hfind]
  dsimp only
  rw [foldl_proj_const Store.priorities _ (processQuestion_priorities now userId),
      foldl_proj_const Store.priorities _ (processRelationship_priorities now userId),
      foldl_proj_const Store.priorities _ (processEntity_priorities now userId), h1]

/-- C1, counterexample to the claim as stated: analysing `entryA` (whose
date is day 5) at time (day 7, ms 42) inserts one priority row dated
(day 7, ms 0) — midnight of the analysis day — not the entry's date. -/
theorem analyze_priority_date_cex :
    entryA.date = ⟨5, 0⟩ ∧
    (analyzeJournalEntry storeC1 "u" 1 ⟨7, 42⟩ respC1).store.priorities.map
      Priority.date = [⟨7, 0⟩] ∧
    (⟨7, 0⟩ : Timestamp) ≠ entryA.date := by decide

/-- C1, witness: the amended theorem applied to the concrete store. -/
theorem analyze_inserts_n_priorities_witness :
    ∃ newRows : List Priority,
      (analyzeJournalEntry storeC1 "u" 1 ⟨7, 42⟩ respC1).store.priorities
        = storeC1.priorities ++ newRows ∧
      newRows.length = respC1.priorities.length ∧
      newRows.map (fun r => (r.content, r.rank))
        = respC1.priorities.map (fun p => (p.content, p.rank)) ∧
      ∀ r ∈ newRows, r.journalEntryId = some entryA.id ∧
        r.date = atMidnight ⟨7, 42⟩ ∧ r.userId = "u" :=
  analyze_inserts_n_priorities storeC1 "u" 1 ⟨7, 42⟩ respC1 entryA (by decide)

/-- C2: when an entity with the same `(userId, type, name)` already
exists, the entity phase creates no row (table length and serial counter
unchanged); the table afterwards is the old table with exactly the rows
carrying the found row's id overwritten — and that overwrite happens if
and only if the extracted description is non‑empty and differs from the
stored one, otherwise the store is untouched. -/
theorem entity_existing_no_insert (now : Timestamp) (u : String) (s : Store)
    (en : EntityItem) (ex : ContextEntity)
    (hfind : findEntityByKey s u en.type en.name = some ex) :
    (processEntity now u s en).contextEntities.length = s.contextEntities.length ∧
    (processEntity now u s en).nextEntityId = s.nextEntityId ∧
    ((en.description = "" ∨ some en.description = ex.description) →
      processEntity now u s en = s) ∧
    (processEntity now u s en).contextEntities
      = s.contextEntities.map (fun e =>
          if e.id = ex.id ∧ en.description ≠ "" ∧ some en.description ≠ ex.description
          then { e with description := some en.description, updatedAt := now }
          else e) := by
  have hpe : processEntity now u s en =
      if en.description != "" && some en.description != ex.description then
        { s with contextEntities := s.contextEntities.map (fun e =>
            if e.id == ex.id then
              { e with description := some en.description, updatedAt := now }
            else e) }
      else s := by
    unfold processEntity
    rw [hfind]
  by_cases hc : en.description ≠ "" ∧ some en.description ≠ ex.description
  · have hb : (en.description != "" && some en.description != ex.description) = true := by
      simp [bne_iff_ne, hc.1, hc.2]
    rw [hpe, hb]
    refine ⟨by simp, rfl, ?_, ?_⟩
    · rintro (h | h)
      · exact absurd h hc.1
      · exact absurd h hc.2
    · show s.contextEntities.map _ = s.contextEntities.map _
      apply List.map_congr_left
      intro e _
      by_cases hid : e.id = ex.id
      · rw [if_pos (by simpa using hid), if_pos ⟨hid, hc⟩]
      · rw [if_neg (by simpa using hid), if_neg (fun h => hid h.1)]
  · have hb : (en.description != "" && some en.description != ex.description) = false := by
      rcases not_and_or.mp hc with h | h
      · simp [bne_iff_ne, not_not.mp h]
      · simp [bne_iff_ne, not_not.mp h]
    rw [hpe, hb]
    refine ⟨rfl, rfl, fun _ => by simp, ?_⟩
    have hfun : ∀ e ∈ s.contextEntities,
        (if e.id = ex.id ∧ en.description ≠ "" ∧ some en.description ≠ ex.description
         then { e with description := some en.description, updatedAt := now }
         else e) = e := by
      intro e _
      rw [if_neg]
      rintro ⟨_, h2, h3⟩
      exact hc ⟨h2, h3⟩
    show s.contextEntities = _
    rw [List.map_congr_left hfun]
    simp

/-- C2, witness: the theorem applied to `storeC2`, whose entity table
holds `entityAlex`, with the differing extracted description `enC2`. -/
theorem entity_existing_no_insert_witness :
    (processEntity ⟨9, 5⟩ "u" storeC2 enC2).contextEntities.length
      = storeC2.contextEntities.length ∧
    (processEntity ⟨9, 5⟩ "u" storeC2 enC2).nextEntityId = storeC2.nextEntityId ∧
    ((enC2.description = "" ∨ some enC2.description = entityAlex.description) →
      processEntity ⟨9, 5⟩ "u" storeC2 enC2 = storeC2) ∧
    (processEntity ⟨9, 5⟩ "u" storeC2 enC2).contextEntities
      = storeC2.contextEntities.map (fun e =>
          if e.id = entityAlex.id ∧ enC2.description ≠ ""
              ∧ some enC2.description ≠ entityAlex.description
          then { e with description := some enC2.description, updatedAt := ⟨9, 5⟩ }
          else e) :=
  entity_existing_no_insert ⟨9, 5⟩ "u" storeC2 enC2 entityAlex (by decide)

/-- C3: a relationship extraction inserts a row exactly when both typed
endpoints resolve to existing entities of the user and no identical
`(userId, source, target, relationshipType)` edge exists; with an
unresolved endpoint or a duplicate edge the store is left untouched, and
`analyzeJournalEntry` as a whole never fails for any response content —
its only error is the up‑front missing‑entry check. -/
theorem relationship_reconciliation (now : Timestamp) (u : String) (s : Store)
    (rel : RelationshipItem) (eid : Nat) (resp : AnalysisResult) :
    (match findEntityByKey s u rel.sourceType rel.sourceName,
           findEntityByKey s u rel.targetType rel.targetName with
     | some src, some tgt =>
        if ∃ er ∈ s.entityRelationships, er.userId = u ∧ er.sourceEntityId = src.id
            ∧ er.targetEntityId = tgt.id ∧ er.relationshipType = rel.relationshipType
        then processRelationship now u s rel = s
        else (processRelationship now u s rel).entityRelationships
              = s.entityRelationships ++
                [{ id := s.nextRelationshipId, sourceEntityId := src.id,
                   targetEntityId := tgt.id,
                   relationshipType := rel.relationshipType, userId := u,
                   createdAt := now, updatedAt := now }]
     | _, _ => processRelationship now u s rel = s) ∧
    ((analyzeJournalEntry s u eid now resp).result = .ok resp ∨
      ((analyzeJournalEntry s u eid now resp).result = .error "Journal entry not found" ∧
        findEntry s u eid = none)) := by
  constructor
  · rcases hsrc : findEntityByKey s u rel.sourceType rel.sourceName with _ | src
    · dsimp only
      unfold processRelationship
      rw [hsrc]
    · rcases htgt : findEntityByKey s u rel.targetType rel.targetName with _ | tgt
      · dsimp only
        unfold processRelationship
        rw [hsrc, htgt]
      · dsimp only
        have hpr : processRelationship now u s rel =
            match (s.entityRelationships.filter (fun er =>
                er.userId == u && er.sourceEntityId == src.id &&
                er.targetEntityId == tgt.id &&
                er.relationshipType == rel.relationshipType)).head? with
            | some _ => s
            | none =>
                { s with
                  entityRelationships := s.entityRelationships ++
                    [{ id := s.nextRelationshipId, sourceEntityId := src.id,
                       targetEntityId := tgt.id,
                       relationshipType := rel.relationshipType, userId := u,
                       createdAt := now, updatedAt := now }],
                  nextRelationshipId := s.nextRelationshipId + 1 } := by
          unfold processRelationship
          rw [hsrc, htgt]
        have hmem : ∀ er : EntityRelationship,
            (er.userId == u && er.sourceEntityId == src.id &&
              er.targetEntityId == tgt.id &&
              er.relationshipType == rel.relationshipType) = true
            ↔ (er.userId = u ∧ er.sourceEntityId = src.id
                ∧ er.targetEntityId = tgt.id ∧ er.relationshipType = rel.relationshipType) := by
          intro er
          simp [Bool.and_assoc, and_assoc]
        by_cases hdup : ∃ er ∈ s.entityRelationships, er.userId = u
            ∧ er.sourceEntityId = src.id ∧ er.targetEntityId = tgt.id
            ∧ er.relationshipType = rel.relationshipType
        · rw [if_pos hdup, hpr]
          obtain ⟨er, hin, hprops⟩ := hdup
          rcases hh : (s.entityRelationships.filter (fun er =>
              er.userId == u && er.sourceEntityId == src.id &&
              er.targetEntityId == tgt.id &&
              er.relationshipType == rel.relationshipType)).head? with _ | er0
          · exfalso
            have hnil := List.head?_eq_none_iff.mp hh
            have : er ∈ s.entityRelationships.filter (fun er =>
                er.userId == u && er.sourceEntityId == src.id &&
                er.targetEntityId == tgt.id &&
                er.relationshipType == rel.relationshipType) :=
              List.mem_filter.mpr ⟨hin, (hmem er).mpr hprops⟩
            rw [hnil] at this
            exact List.not_mem_nil er this
          · rw [hh]
        · rw [if_neg hdup, hpr]
          rcases hh : (s.entityRelationships.filter (fun er =>
              er.userId == u && er.sourceEntityId == src.id &&
              er.targetEntityId == tgt.id &&
              er.relationshipType == rel.relationshipType)).head? with _ | er0
          · rw [hh]
          · exfalso
            have hmemf := List.mem_filter.mp (List.mem_of_mem_head? hh)
            exact hdup ⟨er0, hmemf.1, (hmem er0).mp hmemf.2⟩
  · unfold analyzeJournalEntry
    rcases hf : findEntry s u eid with _ | entry
    · exact Or.inr ⟨rfl, rfl⟩
    · exact Or.inl rfl

/-- The question‑generation insertion fold appends one `pending` row per
response item, unconditionally, returning the inserted rows. -/
theorem foldl_insertGeneratedQuestion (u : String) (now : Timestamp) :
    ∀ (qs : List QuestionItem) (acc : List ClarifyingQuestion) (s : Store),
      qs.foldl (insertGeneratedQuestion u now) (acc, s)
        = (acc ++ mkQuestionRows u now qs s.nextQuestionId,
           { s with
             clarifyingQuestions :=
               s.clarifyingQuestions ++ mkQuestionRows u now qs s.nextQuestionId,
             nextQuestionId := s.nextQuestionId + qs.length }) := by
  intro qs
  induction qs with
  | nil => intro acc s; simp [mkQuestionRows]
  | cons q qs ih =>
      intro acc s
      rw [List.foldl_cons]
      show List.foldl _ (insertGeneratedQuestion u now (acc, s) q) qs = _
      rw [show insertGeneratedQuestion u now (acc, s) q
            = (acc ++ [{ id := s.nextQuestionId, question := q.question, answer := none,
                         status := "pending", userId := u, createdAt := now,
                         updatedAt := now }],
               { s with
                 clarifyingQuestions := s.clarifyingQuestions ++
                   [{ id := s.nextQuestionId, question := q.question, answer := none,
                      status := "pending", userId := u, createdAt := now,
                      updatedAt := now }],
                 nextQuestionId := s.nextQuestionId + 1 }) from rfl]
      rw [ih]
      simp [mkQuestionRows]
      omega

/-- C4, counterexample to the claim as stated: in `storeC4` the question
"Q1" already exists (answered) for user `"u"`.  The entry‑analysis path
does NOT insert the proposed duplicate (the claim says it inserts
unconditionally), while the standalone generation path DOES insert it
without checking the text (the claim says that path checks first). -/
theorem question_paths_cex :
    (analyzeJournalEntry storeC4 "u" 1 ⟨7, 0⟩ respC4).store.clarifyingQuestions.length
      = storeC4.clarifyingQuestions.length ∧
    (generateClarifyingQuestions storeC4 "u" ⟨7, 0⟩
        [{ question := "Q1" }]).2.1.clarifyingQuestions.length
      = storeC4.clarifyingQuestions.length + 1 := by decide

/-- C4, amended: duplicate checking is the reverse of the claim.  The
entry‑analysis path inserts a proposed question only when no row with the
same `(userId, question)` exists (any status); the standalone generation
path, once its pending short‑circuit does not fire, inserts every
proposed question unconditionally. -/
theorem question_insertion_policy (now : Timestamp) (u : String) (s : Store)
    (q : QuestionItem) (qs : List QuestionItem) :
    (if ∃ cq ∈ s.clarifyingQuestions, cq.userId = u ∧ cq.question = q.question
     then processQuestion now u s q = s
     else (processQuestion now u s q).clarifyingQuestions
            = s.clarifyingQuestions ++
              [{ id := s.nextQuestionId, question := q.question, answer := none,
                 status := "pending", userId := u, createdAt := now,
                 updatedAt := now }]) ∧
    (s.clarifyingQuestions.filter (fun cq => cq.userId == u && cq.status == "pending") = [] →
      generateClarifyingQuestions s u now qs
        = (mkQuestionRows u now qs s.nextQuestionId,
           { s with
             clarifyingQuestions :=
               s.clarifyingQuestions ++ mkQuestionRows u now qs s.nextQuestionId,
             nextQuestionId := s.nextQuestionId + qs.length },
           true)) := by
  constructor
  · have hmem : ∀ cq : ClarifyingQuestion,
        (cq.userId == u && cq.question == q.question) = true
          ↔ (cq.userId = u ∧ cq.question = q.question) := by
      intro cq; simp
    by_cases hdup : ∃ cq ∈ s.clarifyingQuestions, cq.userId = u ∧ cq.question = q.question
    · rw [if_pos hdup]
      unfold processQuestion
      rcases hh : (s.clarifyingQuestions.filter (fun cq =>
          cq.userId == u && cq.question == q.question)).head? with _ | cq0
      · exfalso
        obtain ⟨cq, hin, hprops⟩ := hdup
        have hnil := List.head?_eq_none_iff.mp hh
        have : cq ∈ s.clarifyingQuestions.filter (fun cq =>
            cq.userId == u && cq.question == q.question) :=
          List.mem_filter.mpr ⟨hin, (hmem cq).mpr hprops⟩
        rw [hnil] at this
        exact List.not_mem_nil cq this
      · rw [hh]
    · rw [if_neg hdup]
      unfold processQuestion
      rcases hh : (s.clarifyingQuestions.filter (fun cq =>
          cq.userId == u && cq.question == q.question)).head? with _ | cq0
      · rw [hh]
      · exfalso
        have hmemf := List.mem_filter.mp (List.mem_of_mem_head? hh)
        exact hdup ⟨cq0, hmemf.1, (hmem cq0).mp hmemf.2⟩
  · intro h
    unfold generateClarifyingQuestions
    rw [h]
    rw [foldl_insertGeneratedQuestion u now qs [] s]
    rfl

/-- C5, counterexample to the claim as stated: with six pending questions
the generation path returns only five of them, so it does not return "the
pending questions" of the user. -/
theorem pending_limit_cex :
    (storeC5.clarifyingQuestions.filter (fun q =>
        q.userId == "u" && q.status == "pending")).length = 6 ∧
    (generateClarifyingQuestions storeC5 "u" ⟨7, 0⟩ []).1.length = 5 ∧
    (generateClarifyingQuestions storeC5 "u" ⟨7, 0⟩ []).1
      ≠ storeC5.clarifyingQuestions.filter (fun q =>
          q.userId == "u" && q.status == "pending") := by decide

/-- C5, amended: when the user has at least one pending question, the
generation path returns the first (at most) five of them verbatim, leaves
the store untouched, and does not invoke the model. -/
theorem pending_short_circuit (s : Store) (u : String) (now : Timestamp)
    (qs : List QuestionItem)
    (h : s.clarifyingQuestions.filter (fun q =>
        q.userId == u && q.status == "pending") ≠ []) :
    generateClarifyingQuestions s u now qs
      = ((s.clarifyingQuestions.filter (fun q =>
            q.userId == u && q.status == "pending")).take 5, s, false) := by
  unfold generateClarifyingQuestions
  have htake : ((s.clarifyingQuestions.filter (fun q =>
      q.userId == u && q.status == "pending")).take 5).isEmpty = false := by
    simp only [List.isEmpty_eq_false, ne_eq, List.take_eq_nil_iff]
    simpa using h
  dsimp only
  rw [htake]
  rfl

/-- C5, witness: the amended theorem applied to `storeC5`, which holds
six pending questions for `"u"`. -/
theorem pending_short_circuit_witness :
    generateClarifyingQuestions storeC5 "u" ⟨7, 0⟩ []
      = ((storeC5.clarifyingQuestions.filter (fun q =>
            q.userId == "u" && q.status == "pending")).take 5, storeC5, false) :=
  pending_short_circuit storeC5 "u" ⟨7, 0⟩ [] (by decide)

/-- C8, counterexample to the claim as stated: with no matching journal
entry, the `/analyze-entry/:id` handler of `ai.routes.ts` answers 500,
not 404. -/
theorem analyze_entry_route_status_cex :
    (analyzeEntryRoute storeEmpty "u" 1 ⟨7, 0⟩ respC1).status = 500 ∧
    (analyzeEntryRoute storeEmpty "u" 1 ⟨7, 0⟩ respC1).status ≠ 404 := by decide

/-- C8, amended: when the entry does not exist for the user, the service
throws before any write or model call (store unchanged, model not
invoked); the `/analyze/:id` route variant surfaces this as a 404 with
the thrown message, while the `/analyze-entry/:id` variant catches every
error as a 500. -/
theorem analyze_not_found_routes (s : Store) (u : String) (id : Nat)
    (now : Timestamp) (resp : AnalysisResult)
    (h : findEntry s u id = none) :
    analyzeRoute s u id now resp
      = { status := 404, errorBody := some "Journal entry not found",
          store := s, modelCalled := false } ∧
    analyzeEntryRoute s u id now resp
      = { status := 500, errorBody := some "Failed to analyze journal entry",
          store := s, modelCalled := false } := by
  constructor
  · unfold analyzeRoute analyzeJournalEntry
    rw [h]
  · unfold analyzeEntryRoute analyzeJournalEntry
    rw [h]

/-- C8, witness: the amended theorem applied to the empty store. -/
theorem analyze_not_found_routes_witness :
    analyzeRoute storeEmpty "u" 1 ⟨7, 0⟩ respC1
      = { status := 404, errorBody := some "Journal entry not found",
          store := storeEmpty, modelCalled := false } ∧
    analyzeEntryRoute storeEmpty "u" 1 ⟨7, 0⟩ respC1
      = { status := 500, errorBody := some "Failed to analyze journal entry",
          store := storeEmpty, modelCalled := false } :=
  analyze_not_found_routes storeEmpty "u" 1 ⟨7, 0⟩ respC1 (by decide)

/-- C10: when the user has no journal entries matching the (date‑less)
daily‑summary query, the function returns the fixed no‑entries value,
leaves the store untouched, and does not invoke the model. -/
theorem daily_summary_no_entries (s : Store) (u : String) (date now : Timestamp)
    (resp : SummaryResult)
    (h : s.journalEntries.filter (fun e => e.userId == u) = []) :
    generateDailySummary s u date now resp
      = ({ summary := "No journal entries for this date.", priorities := [] },
         s, false) := by
  unfold generateDailySummary
  rw [h]
  rfl

/-- C10, witness: `storeC1` holds entries only for `"u"`, so the summary
for `"v"` short‑circuits. -/
theorem daily_summary_no_entries_witness :
    generateDailySummary storeC1 "v" ⟨7, 0⟩ ⟨7, 0⟩ respC7
      = ({ summary := "No journal entries for this date.", priorities := [] },
         storeC1, false) :=
  daily_summary_no_entries storeC1 "v" ⟨7, 0⟩ ⟨7, 0⟩ respC7 (by decide)

/-- Mapping a row transformer that does not change the filter's verdict
commutes with filtering. -/
theorem filter_map_pres {α : Type} (f : α → α) (p : α → Bool)
    (h : ∀ a, p (f a) = p a) :
    ∀ l : List α, (l.map f).filter p = (l.filter p).map f := by
  intro l
  induction l with
  | nil => rfl
  | cons a l ih =>
      simp only [List.map_cons, List.filter_cons, h a]
      by_cases hpa : p a = true
      · rw [hpa]
        simp [ih]
      · rw [Bool.not_eq_true] at hpa
        rw [hpa]
        simp [ih]

/-- The new‑entity loop of the answer path never touches the question table. -/
theorem foldl_enhanceNewEntity_cq (n : Timestamp) (u : String)
    (ex : List ContextEntity) :
    ∀ (l : List NewEntityItem) (acc : List (String × Nat) × Store),
      (l.foldl (enhanceNewEntity n u ex) acc).2.clarifyingQuestions
        = acc.2.clarifyingQuestions :=
  foldl_proj_const (fun acc : List (String × Nat) × Store => acc.2.clarifyingQuestions)
    (enhanceNewEntity n u ex) (fun acc a => by
      unfold enhanceNewEntity; split <;> rfl)

/-- The entity‑update loop of the answer path never touches the question table. -/
theorem foldl_enhanceEntityUpdate_cq (n : Timestamp)
    (ex : List ContextEntity) :
    ∀ (l : List EntityUpdateItem) (acc : List (String × Nat) × Store),
      (l.foldl (enhanceEntityUpdate n ex) acc).2.clarifyingQuestions
        = acc.2.clarifyingQuestions :=
  foldl_proj_const (fun acc : List (String × Nat) × Store => acc.2.clarifyingQuestions)
    (enhanceEntityUpdate n ex) (fun acc a => by
      unfold enhanceEntityUpdate; split <;> rfl)

/-- The relationship loop of the answer path never touches the question table. -/
theorem foldl_enhanceRelationship_cq (n : Timestamp) (u : String)
    (ex : List ContextEntity) (m : List (String × Nat)) :
    ∀ (l : List AnswerRelationshipItem) (st : Store),
      (l.foldl (enhanceRelationship n u ex m) st).clarifyingQuestions
        = st.clarifyingQuestions :=
  foldl_proj_const (fun st : Store => st.clarifyingQuestions)
    (enhanceRelationship n u ex m) (fun st a => by
      unfold enhanceRelationship; dsimp only; split <;> rfl)

/-- The whole answer‑analysis pass leaves the question table unchanged. -/
theorem enhance_clarifying (t : Store) (u qn a : String) (n : Timestamp)
    (rr : EnhanceResult) :
    (enhanceContextFromAnswer t u qn a n rr).2.1.clarifyingQuestions
      = t.clarifyingQuestions := by
  unfold enhanceContextFromAnswer
  dsimp only
  rw [foldl_enhanceRelationship_cq, foldl_enhanceEntityUpdate_cq,
      foldl_enhanceNewEntity_cq]

/-- When the `(id, userId)` lookup matches, `answerClarifyingQuestion`
rewrites every matching row to `answered` with the supplied answer and
returns the first matched row, post‑update. -/
theorem answer_cq_table (t : Store) (u : String) (qid : Nat) (a : String)
    (n : Timestamp) (rr : EnhanceResult) (r0 : ClarifyingQuestion)
    (hh : (t.clarifyingQuestions.filter (fun r =>
        r.id == qid && r.userId == u)).head? = some r0) :
    (answerClarifyingQuestion t u qid a n rr).2.1.clarifyingQuestions
      = t.clarifyingQuestions.map (fun r =>
          if r.id == qid && r.userId == u
          then { r with answer := some a, status := "answered", updatedAt := n }
          else r) ∧
    (answerClarifyingQuestion t u qid a n rr).1
      = .ok { r0 with answer := some a, status := "answered", updatedAt := n } := by
  unfold answerClarifyingQuestion
  dsimp only
  rw [hh]
  dsimp only
  exact ⟨enhance_clarifying _ _ _ _ _ _, rfl⟩

/-- C6: answering an existing question of the user sets its status to
`answered` and persists the answer text; every matching row of the table
is rewritten that way and no other row changes; and re‑answering simply
overwrites the answer, leaving the status `answered` — never back to
`pending`. -/
theorem answer_question_spec (s : Store) (u : String) (qid : Nat)
    (ans ans2 : String) (now now2 : Timestamp) (resp resp2 : EnhanceResult)
    (q : ClarifyingQuestion) (hq : q ∈ s.clarifyingQuestions)
    (hid : q.id = qid) (hu : q.userId = u) :
    (∃ row : ClarifyingQuestion,
        (answerClarifyingQuestion s u qid ans now resp).1 = .ok row ∧
        row.status = "answered" ∧ row.answer = some ans ∧
        row.id = qid ∧ row.userId = u) ∧
    (answerClarifyingQuestion s u qid ans now resp).2.1.clarifyingQuestions
      = s.clarifyingQuestions.map (fun r =>
          if r.id = qid ∧ r.userId = u
          then { r with status := "answered", answer := some ans, updatedAt := now }
          else r) ∧
    (answerClarifyingQuestion
        (answerClarifyingQuestion s u qid ans now resp).2.1
        u qid ans2 now2 resp2).2.1.clarifyingQuestions
      = s.clarifyingQuestions.map (fun r =>
          if r.id = qid ∧ r.userId = u
          then { r with status := "answered", answer := some ans2, updatedAt := now2 }
          else r) := by
  have hcond : ∀ r : ClarifyingQuestion,
      (r.id == qid && r.userId == u) = true ↔ (r.id = qid ∧ r.userId = u) := by
    intro r; simp
  have hpres : ∀ r : ClarifyingQuestion,
      ((if (r.id == qid && r.userId == u) = true
        then { r with answer := some ans, status := "answered", updatedAt := now }
        else r).id == qid
        && (if (r.id == qid && r.userId == u) = true
            then { r with answer := some ans, status := "answered", updatedAt := now }
            else r).userId == u)
      = (r.id == qid && r.userId == u) := by
    intro r
    split <;> rfl
  rcases hh : (s.clarifyingQuestions.filter (fun r =>
      r.id == qid && r.userId == u)).head? with _ | q0
  · exfalso
    have hnil := List.head?_eq_none_iff.mp hh
    have hmem : q ∈ s.clarifyingQuestions.filter (fun r =>
        r.id == qid && r.userId == u) :=
      List.mem_filter.mpr ⟨hq, (hcond q).mpr ⟨hid, hu⟩⟩
    rw [hnil] at hmem
    exact List.not_mem_nil q hmem
  · obtain ⟨htab, hres⟩ := answer_cq_table s u qid ans now resp q0 hh
    have hq0 := List.mem_filter.mp (List.mem_of_mem_head? hh)
    obtain ⟨hq0id, hq0u⟩ := (hcond q0).mp hq0.2
    have hmapeq : s.clarifyingQuestions.map (fun r =>
          if r.id == qid && r.userId == u
          then { r with answer := some ans, status := "answered", updatedAt := now }
          else r)
        = s.clarifyingQuestions.map (fun r =>
          if r.id = qid ∧ r.userId = u
          then { r with status := "answered", answer := some ans, updatedAt := now }
          else r) := by
      apply List.map_congr_left
      intro r _
      by_cases hr : r.id = qid ∧ r.userId = u
      · have hb : (r.id == qid && r.userId == u) = true := (hcond r).mpr hr
        simp [hb, hr]
      · have hb : ¬ ((r.id == qid && r.userId == u) = true) :=
          fun hb => hr ((hcond r).mp hb)
        simp [hb, hr]
    refine ⟨⟨{ q0 with answer := some ans, status := "answered", updatedAt := now },
        hres, rfl, rfl, hq0id, hq0u⟩, htab.trans hmapeq, ?_⟩
    -- second call: the matched list of the updated store is the updated
    -- matched list, so the lookup still succeeds
    have hh2 : ((answerClarifyingQuestion s u qid ans now resp).2.1.clarifyingQuestions.filter
        (fun r => r.id == qid && r.userId == u)).head?
        = some { q0 with answer := some ans, status := "answered", updatedAt := now } := by
      rw [htab, filter_map_pres _ _ hpres, List.head?_map, hh]
      simp [hq0.2]
      intro h
      exact absurd hq0u (h hq0id)
    obtain ⟨htab2, _⟩ := answer_cq_table
      (answerClarifyingQuestion s u qid ans now resp).2.1 u qid ans2 now2 resp2
      { q0 with answer := some ans, status := "answered", updatedAt := now } hh2
    rw [htab2, htab, List.map_map]
    apply List.map_congr_left
    intro r _
    by_cases hr : r.id = qid ∧ r.userId = u
    · have hb : (r.id == qid && r.userId == u) = true := (hcond r).mpr hr
      simp [Function.comp, hb, hr]
    · have hb : ¬ ((r.id == qid && r.userId == u) = true) :=
        fun hb => hr ((hcond r).mp hb)
      simp [Function.comp, hb, hr]

/-- C6, witness: answering (then re‑answering) the pending question of
`storeC6`. -/
theorem answer_question_spec_witness :
    (∃ row : ClarifyingQuestion,
        (answerClarifyingQuestion storeC6 "u" 1 "A1" ⟨8, 0⟩ emptyEnhance).1 = .ok row ∧
        row.status = "answered" ∧ row.answer = some "A1" ∧
        row.id = 1 ∧ row.userId = "u") ∧
    (answerClarifyingQuestion storeC6 "u" 1 "A1" ⟨8, 0⟩ emptyEnhance).2.1.clarifyingQuestions
      = storeC6.clarifyingQuestions.map (fun r =>
          if r.id = 1 ∧ r.userId = "u"
          then { r with status := "answered", answer := some "A1", updatedAt := ⟨8, 0⟩ }
          else r) ∧
    (answerClarifyingQuestion
        (answerClarifyingQuestion storeC6 "u" 1 "A1" ⟨8, 0⟩ emptyEnhance).2.1
        "u" 1 "A2" ⟨9, 0⟩ emptyEnhance).2.1.clarifyingQuestions
      = storeC6.clarifyingQuestions.map (fun r =>
          if r.id = 1 ∧ r.userId = "u"
          then { r with status := "answered", answer := some "A2", updatedAt := ⟨9, 0⟩ }
          else r) :=
  answer_question_spec storeC6 "u" 1 "A1" "A2" ⟨8, 0⟩ ⟨9, 0⟩ emptyEnhance emptyEnhance
    (pendingQ 1) (by decide) (by decide) (by decide)

/-- Equation: `summaryRows` on the empty response list. -/
theorem summaryRows_nil (u : String) (date now : Timestamp) (ec : List String)
    (nid : Nat) : summaryRows u date now ec [] nid = [] := rfl

/-- Equation: `summaryRows` on a response cons cell. -/
theorem summaryRows_cons (u : String) (date now : Timestamp) (ec : List String)
    (p : PriorityItem) (ps : List PriorityItem) (nid : Nat) :
    summaryRows u date now ec (p :: ps) nid
      = if ec.contains p.content then summaryRows u date now ec ps nid
        else { id := nid, content := p.content, date := date, completed := false,
               rank := p.rank, journalEntryId := none, userId := u,
               createdAt := now, updatedAt := now }
             :: summaryRows u date now ec ps (nid + 1) := rfl

/-- The summary‑path insertion fold appends exactly the rows described by
`summaryRows`. -/
theorem foldl_insertSummaryPriority (u : String) (date now : Timestamp)
    (ec : List String) :
    ∀ (ps : List PriorityItem) (st : Store),
      (ps.foldl (insertSummaryPriority u date now ec) st).priorities
        = st.priorities ++ summaryRows u date now ec ps st.nextPriorityId := by
  intro ps
  induction ps with
  | nil => intro st; simp [summaryRows_nil]
  | cons p ps ih =>
      intro st
      rw [List.foldl_cons]
      by_cases h : ec.contains p.content
      · rw [show insertSummaryPriority u date now ec st p = st from by
            unfold insertSummaryPriority; rw [if_pos h]]
        rw [ih, summaryRows_cons, if_pos h]
      · have hstep : insertSummaryPriority u date now ec st p =
            { st with
              priorities := st.priorities ++
                [{ id := st.nextPriorityId, content := p.content, date := date,
                   completed := false, rank := p.rank, journalEntryId := none,
                   userId := u, createdAt := now, updatedAt := now }],
              nextPriorityId := st.nextPriorityId + 1 } := by
          unfold insertSummaryPriority
          rw [if_neg h]
        rw [hstep, ih, summaryRows_cons, if_neg h]
        simp

/-- Every row `summaryRows` emits is the user's, carries the summary date,
no entry link, content not in the pre‑existing set, and an originating
response item. -/
theorem summaryRows_mem (u : String) (date now : Timestamp) (ec : List String) :
    ∀ (ps : List PriorityItem) (nid : Nat) (r : Priority),
      r ∈ summaryRows u date now ec ps nid →
      r.userId = u ∧ r.date = date ∧ r.journalEntryId = none ∧
        ec.contains r.content = false ∧
        ∃ p ∈ ps, p.content = r.content ∧ r.rank = p.rank := by
  intro ps
  induction ps with
  | nil => intro nid r hr; simp [summaryRows_nil] at hr
  | cons p ps ih =>
      intro nid r hr
      rw [summaryRows_cons] at hr
      by_cases h : ec.contains p.content
      · rw [if_pos h] at hr
        obtain ⟨h1, h2, h3, h4, pp, hpp, hc⟩ := ih nid r hr
        exact ⟨h1, h2, h3, h4, pp, List.mem_cons_of_mem p hpp, hc⟩
      · rw [if_neg h] at hr
        rcases List.mem_cons.mp hr with hr | hr
        · subst hr
          exact ⟨rfl, rfl, rfl, Bool.eq_false_iff.mpr h,
            p, List.mem_cons_self p ps, rfl, rfl⟩
        · obtain ⟨h1, h2, h3, h4, pp, hpp, hc⟩ := ih (nid + 1) r hr
          exact ⟨h1, h2, h3, h4, pp, List.mem_cons_of_mem p hpp, hc⟩

/-- Every response item whose content is not in the pre‑existing set gets
a row in `summaryRows`. -/
theorem summaryRows_complete (u : String) (date now : Timestamp) (ec : List String) :
    ∀ (ps : List PriorityItem) (nid : Nat) (p : PriorityItem),
      p ∈ ps → ec.contains p.content = false →
      ∃ r ∈ summaryRows u date now ec ps nid, r.content = p.content := by
  intro ps
  induction ps with
  | nil => intro nid p hp; exact absurd hp (List.not_mem_nil p)
  | cons q ps ih =>
      intro nid p hp hnc
      rw [summaryRows_cons]
      rcases List.mem_cons.mp hp with hp | hp
      · subst hp
        rw [if_neg (by rw [hnc]; exact Bool.false_ne_true)]
        exact ⟨_, List.mem_cons_self _ _, rfl⟩
      · by_cases h : ec.contains q.content
        · rw [if_pos h]
          exact ih nid p hp hnc
        · rw [if_neg h]
          obtain ⟨r, hr, hrc⟩ := ih (nid + 1) p hp hnc
          exact ⟨r, List.mem_cons_of_mem _ hr, hrc⟩

/-- C7, counterexample to the claim as stated: in `storeC7` the only
priority of user `"u"` has content "X" but is dated day 3, not day 7 —
yet the summary for day 7 proposing "X" inserts nothing, because the
content‑set check spans all of the user's priorities, not just the
summary day's. -/
theorem summary_dedup_all_dates_cex :
    (∀ p ∈ storeC7.priorities, p.date ≠ (⟨7, 0⟩ : Timestamp)) ∧
    (generateDailySummary storeC7 "u" ⟨7, 0⟩ ⟨7, 0⟩ respC7).2.1 = storeC7 := by decide

/-- C7, amended: a summary‑extracted priority is inserted if and only if
no existing priority of the user — of any date — has identical content;
the inserted rows carry the requested summary date, the user, and no
journal‑entry link. -/
theorem summary_priority_dedup (s : Store) (u : String) (date now : Timestamp)
    (resp : SummaryResult)
    (hE : s.journalEntries.filter (fun e => e.userId == u) ≠ []) :
    let ec := (s.priorities.filter (fun p => p.userId == u)).map (fun p => p.content)
    (generateDailySummary s u date now resp).1 = resp ∧
    (generateDailySummary s u date now resp).2.1.priorities
      = s.priorities ++ summaryRows u date now ec resp.priorities s.nextPriorityId ∧
    (∀ r ∈ summaryRows u date now ec resp.priorities s.nextPriorityId,
       r.userId = u ∧ r.date = date ∧ r.journalEntryId = none ∧
         ec.contains r.content = false ∧
         ∃ p ∈ resp.priorities, p.content = r.content ∧ r.rank = p.rank) ∧
    (∀ p ∈ resp.priorities, ec.contains p.content = false →
       ∃ r ∈ summaryRows u date now ec resp.priorities s.nextPriorityId,
         r.content = p.content) := by
  intro ec
  have hemp : (s.journalEntries.filter (fun e => e.userId == u)).isEmpty = false :=
    List.isEmpty_eq_false.mpr hE
  unfold generateDailySummary
  dsimp only
  rw [hemp]
  refine ⟨rfl, ?_,
    fun r hr => summaryRows_mem u date now ec resp.priorities s.nextPriorityId r hr,
    fun p hp hnc => summaryRows_complete u date now ec resp.priorities s.nextPriorityId p hp hnc⟩
  show (resp.priorities.foldl (insertSummaryPriority u date now _) s).priorities = _
  rw [foldl_insertSummaryPriority]

/-- C7, witness: the amended theorem applied to `storeC7`. -/
theorem summary_priority_dedup_witness :
    let ec := (storeC7.priorities.filter (fun p => p.userId == "u")).map
      (fun p => p.content)
    (generateDailySummary storeC7 "u" ⟨7, 0⟩ ⟨7, 1⟩ respC7).1 = respC7 ∧
    (generateDailySummary storeC7 "u" ⟨7, 0⟩ ⟨7, 1⟩ respC7).2.1.priorities
      = storeC7.priorities ++
        summaryRows "u" ⟨7, 0⟩ ⟨7, 1⟩ ec respC7.priorities storeC7.nextPriorityId ∧
    (∀ r ∈ summaryRows "u" ⟨7, 0⟩ ⟨7, 1⟩ ec respC7.priorities storeC7.nextPriorityId,
       r.userId = "u" ∧ r.date = ⟨7, 0⟩ ∧ r.journalEntryId = none ∧
         ec.contains r.content = false ∧
         ∃ p ∈ respC7.priorities, p.content = r.content ∧ r.rank = p.rank) ∧
    (∀ p ∈ respC7.priorities, ec.contains p.content = false →
       ∃ r ∈ summaryRows "u" ⟨7, 0⟩ ⟨7, 1⟩ ec respC7.priorities storeC7.nextPriorityId,
         r.content = p.content) :=
  summary_priority_dedup storeC7 "u" ⟨7, 0⟩ ⟨7, 1⟩ respC7 (by decide)

/-! ### User scoping: generic lemmas -/

/-- A fold whose step commutes with `g` commutes with `g`. -/
theorem foldl_comm_g {σ α : Type} (g : σ → σ) (f : σ → α → σ)
    (h : ∀ s a, f (g s) a = g (f s a)) :
    ∀ (l : List α) (s : σ), l.foldl f (g s) = g (l.foldl f s) := by
  intro l
  induction l with
  | nil => intro s; rfl
  | cons a l ih => intro s; rw [List.foldl_cons, h, ih, List.foldl_cons]

/-- Filtering by a predicate that forces `uid a = u` is unaffected by a
prior restriction to `uid a = u` rows. -/
theorem filter_over_user_filter {α : Type} (u : String) (uid : α → String)
    (p : α → Bool) (hp : ∀ a, p a = true → uid a = u) (l : List α) :
    (l.filter (fun a => uid a == u)).filter p = l.filter p := by
  rw [List.filter_filter]
  apply List.filter_congr
  intro a _
  by_cases hpa : p a = true
  · rw [hpa, hp a hpa]
    simp
  · rw [Bool.not_eq_true] at hpa
    rw [hpa]
    simp

/-- The guarded entry lookup sees only the user's rows. -/
theorem findEntry_restrict (s : Store) (u : String) (eid : Nat) :
    findEntry (restrictTo u s) u eid = findEntry s u eid := by
  unfold findEntry restrictTo
  dsimp only
  rw [filter_over_user_filter u (fun e : JournalEntry => e.userId)
    (fun e => e.id == eid && e.userId == u)
    (by intro a ha; simp only [Bool.and_eq_true, beq_iff_eq] at ha; exact ha.2)
    s.journalEntries]

/-- The entity‑key lookup sees only the user's rows. -/
theorem findEntityByKey_restrict (s : Store) (u ty nm : String) :
    findEntityByKey (restrictTo u s) u ty nm = findEntityByKey s u ty nm := by
  unfold findEntityByKey restrictTo
  dsimp only
  rw [filter_over_user_filter u (fun e : ContextEntity => e.userId)
    (fun e => e.userId == u && e.type == ty && e.name == nm)
    (by intro a ha; simp only [Bool.and_eq_true, beq_iff_eq] at ha; exact ha.1.1)
    s.contextEntities]

/-- Rewriting only the `contextEntities` table, in a way that leaves other
users' rows intact, leaves the others' view intact. -/
theorem othersOf_set_ce (u : String) (s : Store) (ce : List ContextEntity)
    (hce : ce.filter (fun r => r.userId != u)
      = s.contextEntities.filter (fun r => r.userId != u)) :
    othersOf u { s with contextEntities := ce } = othersOf u s := by
  unfold othersOf
  rw [hce]

/-- Rewriting only the `clarifyingQuestions` table, preserving other
users' rows, leaves the others' view intact. -/
theorem othersOf_set_cq (u : String) (s : Store) (cq : List ClarifyingQuestion)
    (hcq : cq.filter (fun r => r.userId != u)
      = s.clarifyingQuestions.filter (fun r => r.userId != u)) :
    othersOf u { s with clarifyingQuestions := cq } = othersOf u s := by
  unfold othersOf
  rw [hcq]

/-- Priority insertion leaves other users' rows intact. -/
theorem insertPriority_others (u : String) (entry : JournalEntry)
    (today now : Timestamp) (s : Store) (p : PriorityItem) :
    othersOf u (insertPriority u entry today now s p) = othersOf u s := by
  unfold insertPriority othersOf
  simp

/-- Priority insertion commutes with restriction to the user's rows. -/
theorem insertPriority_restrict (u : String) (entry : JournalEntry)
    (today now : Timestamp) (s : Store) (p : PriorityItem) :
    insertPriority u entry today now (restrictTo u s) p
      = restrictTo u (insertPriority u entry today now s p) := by
  unfold insertPriority restrictTo
  simp

/-- The entity phase leaves other users' rows intact and preserves
entity‑table well‑formedness. -/
theorem processEntity_scoped (now : Timestamp) (u : String) (s : Store)
    (en : EntityItem) (hok : EntityTableOk s) :
    othersOf u (processEntity now u s en) = othersOf u s ∧
      EntityTableOk (processEntity now u s en) := by
  obtain ⟨hnd, hlt⟩ := hok
  unfold processEntity
  rcases hfind : findEntityByKey s u en.type en.name with _ | ex
  · dsimp only
    refine ⟨by unfold othersOf; simp, ?_, ?_⟩
    · show (((s.contextEntities ++ [_]).map (fun e : ContextEntity => e.id))).Nodup
      rw [List.map_append]
      refine List.Nodup.append hnd (List.nodup_singleton _) ?_
      intro a ha hb
      simp only [List.map_cons, List.map_nil, List.mem_singleton] at hb
      subst hb
      obtain ⟨e, he, hei⟩ := List.mem_map.mp ha
      exact absurd hei (Nat.ne_of_lt (hlt e he))
    · intro e he
      rcases List.mem_append.mp he with he | he
      · exact Nat.lt_trans (hlt e he) (Nat.lt_succ_self _)
      · rw [List.mem_singleton] at he
        subst he
        exact Nat.lt_succ_self _
  · dsimp only
    have hexmem := List.mem_filter.mp (List.mem_of_mem_head? hfind)
    have hexu : ex.userId = u := by
      have := hexmem.2
      simp only [Bool.and_eq_true, beq_iff_eq] at this
      exact this.1.1
    split
    · have hupres : ∀ e : ContextEntity,
          ((if (e.id == ex.id) = true
            then { e with description := some en.description, updatedAt := now }
            else e).userId != u) = (e.userId != u) := by
        intro e
        split <;> rfl
      have hid : ∀ e : ContextEntity,
          ((if (e.id == ex.id) = true
            then { e with description := some en.description, updatedAt := now }
            else e).id) = e.id := by
        intro e
        split <;> rfl
      have hcomm : (s.contextEntities.map (fun e =>
            if (e.id == ex.id) = true
            then { e with description := some en.description, updatedAt := now }
            else e)).filter (fun r => r.userId != u)
          = s.contextEntities.filter (fun r => r.userId != u) := by
        rw [filter_map_pres _ _ hupres]
        have hfix : ∀ r ∈ s.contextEntities.filter (fun r => r.userId != u),
            (if (r.id == ex.id) = true
             then { r with description := some en.description, updatedAt := now }
             else r) = r := by
          intro r hr
          have hrm := List.mem_filter.mp hr
          have hrne : r.userId ≠ u := by simpa using hrm.2
          have : (r.id == ex.id) = false := by
            rw [beq_eq_false_iff_ne]
            intro hide
            have := List.inj_on_of_nodup_map hnd hrm.1 hexmem.1 hide
            exact hrne (this ▸ hexu)
          rw [this]
          simp
        rw [List.map_congr_left hfix]
        simp
      refine ⟨othersOf_set_ce u s _ hcomm, ?_, ?_⟩
      · show ((s.contextEntities.map _).map (fun e : ContextEntity => e.id)).Nodup
        rw [List.map_map]
        have : (fun e => ContextEntity.id e) ∘ (fun e : ContextEntity =>
            if (e.id == ex.id) = true
            then { e with description := some en.description, updatedAt := now }
            else e) = fun e => e.id := by
          funext e
          exact hid e
        rw [this]
        exact hnd
      · intro e he
        obtain ⟨e0, he0, hee⟩ := List.mem_map.mp he
        subst hee
        show _ < s.nextEntityId
        rw [hid e0]
        exact hlt e0 he0
    · exact ⟨rfl, hnd, hlt⟩

/-- The entity phase commutes with restriction to the user's rows. -/
theorem processEntity_restrict (now : Timestamp) (u : String) (s : Store)
    (en : EntityItem) :
    processEntity now u (restrictTo u s) en
      = restrictTo u (processEntity now u s en) := by
  unfold processEntity
  rw [findEntityByKey_restrict]
  rcases hfind : findEntityByKey s u en.type en.name with _ | ex
  · dsimp only
    unfold restrictTo
    simp
  · dsimp only
    have hupres : ∀ e : ContextEntity,
        ((if (e.id == ex.id) = true
          then { e with description := some en.description, updatedAt := now }
          else e).userId == u) = (e.userId == u) := by
      intro e
      split <;> rfl
    split
    · show _ = restrictTo u { s with contextEntities := _ }
      unfold restrictTo
      dsimp only
      rw [filter_map_pres _ _ hupres]
    · rfl

/-- The relationship phase leaves other users' rows intact. -/
theorem processRelationship_others (now : Timestamp) (u : String) (s : Store)
    (rel : RelationshipItem) :
    othersOf u (processRelationship now u s rel) = othersOf u s := by
  unfold processRelationship
  dsimp only
  split
  · split
    · rfl
    · unfold othersOf
      simp
  · rfl

/-- The relationship phase commutes with restriction to the user's rows. -/
theorem processRelationship_restrict (now : Timestamp) (u : String) (s : Store)
    (rel : RelationshipItem) :
    processRelationship now u (restrictTo u s) rel
      = restrictTo u (processRelationship now u s rel) := by
  unfold processRelationship
  dsimp only
  rw [findEntityByKey_restrict, findEntityByKey_restrict]
  rcases h1 : findEntityByKey s u rel.sourceType rel.sourceName with _ | src
  · rfl
  · rcases h2 : findEntityByKey s u rel.targetType rel.targetName with _ | tgt
    · rfl
    · dsimp only
      have habs : (restrictTo u s).entityRelationships.filter (fun er =>
            er.userId == u && er.sourceEntityId == src.id &&
            er.targetEntityId == tgt.id &&
            er.relationshipType == rel.relationshipType)
          = s.entityRelationships.filter (fun er =>
            er.userId == u && er.sourceEntityId == src.id &&
            er.targetEntityId == tgt.id &&
            er.relationshipType == rel.relationshipType) := by
        show ((s.entityRelationships.filter _).filter _) = _
        rw [filter_over_user_filter u (fun er : EntityRelationship => er.userId)
          (fun er => er.userId == u && er.sourceEntityId == src.id &&
            er.targetEntityId == tgt.id &&
            er.relationshipType == rel.relationshipType)
          (by intro a ha; simp only [Bool.and_eq_true, beq_iff_eq] at ha
              exact ha.1.1.1)
          s.entityRelationships]
      rw [habs]
      rcases hdup : (s.entityRelationships.filter (fun er =>
          er.userId == u && er.sourceEntityId == src.id &&
          er.targetEntityId == tgt.id &&
          er.relationshipType == rel.relationshipType)).head? with _ | er0
      · rw [hdup]
        dsimp only
        unfold restrictTo
        simp
      · rw [hdup]

/-- The question phase of entry analysis leaves other users' rows intact. -/
theorem processQuestion_others (now : Timestamp) (u : String) (s : Store)
    (q : QuestionItem) :
    othersOf u (processQuestion now u s q) = othersOf u s := by
  unfold processQuestion
  split
  · rfl
  · unfold othersOf
    simp

/-- The question phase of entry analysis commutes with restriction. -/
theorem processQuestion_restrict (now : Timestamp) (u : String) (s : Store)
    (q : QuestionItem) :
    processQuestion now u (restrictTo u s) q
      = restrictTo u (processQuestion now u s q) := by
  unfold processQuestion
  have habs : (restrictTo u s).clarifyingQuestions.filter (fun cq =>
        cq.userId == u && cq.question == q.question)
      = s.clarifyingQuestions.filter (fun cq =>
        cq.userId == u && cq.question == q.question) := by
    show ((s.clarifyingQuestions.filter _).filter _) = _
    rw [filter_over_user_filter u (fun cq : ClarifyingQuestion => cq.userId)
      (fun cq => cq.userId == u && cq.question == q.question)
      (by intro a ha; simp only [Bool.and_eq_true, beq_iff_eq] at ha
          exact ha.1)
      s.clarifyingQuestions]
  rw [habs]
  rcases hh : (s.clarifyingQuestions.filter (fun cq =>
      cq.userId == u && cq.question == q.question)).head? with _ | cq0
  · rw [hh]
    dsimp only
    unfold restrictTo
    simp
  · rw [hh]

/-- The entity fold of entry analysis leaves other users' rows intact and
keeps the entity table well formed. -/
theorem foldl_processEntity_scoped (now : Timestamp) (u : String) :
    ∀ (l : List EntityItem) (s : Store), EntityTableOk s →
      othersOf u (l.foldl (processEntity now u) s) = othersOf u s ∧
        EntityTableOk (l.foldl (processEntity now u) s) := by
  intro l
  induction l with
  | nil => intro s h; exact ⟨rfl, h⟩
  | cons a l ih =>
      intro s h
      rw [List.foldl_cons]
      obtain ⟨ho, hk⟩ := processEntity_scoped now u s a h
      obtain ⟨ho2, hk2⟩ := ih (processEntity now u s a) hk
      exact ⟨ho2.trans ho, hk2⟩

/-- Priority insertion never touches the entity table or its counter. -/
theorem foldl_insertPriority_entityTable (u : String) (entry : JournalEntry)
    (today now : Timestamp) (l : List PriorityItem) (s : Store) :
    EntityTableOk (l.foldl (insertPriority u entry today now) s)
      ↔ EntityTableOk s := by
  have h := foldl_proj_const
    (fun st : Store => (st.contextEntities, st.nextEntityId))
    (insertPriority u entry today now) (fun s p => rfl) l s
  have h1 : (l.foldl (insertPriority u entry today now) s).contextEntities
      = s.contextEntities := congrArg Prod.fst h
  have h2 : (l.foldl (insertPriority u entry today now) s).nextEntityId
      = s.nextEntityId := congrArg Prod.snd h
  unfold EntityTableOk
  rw [h1, h2]

/-- The four write phases of entry analysis leave other users' rows intact. -/
theorem analyze_pipeline_others (now : Timestamp) (u : String)
    (entry : JournalEntry) (resp : AnalysisResult) (s : Store)
    (hok : EntityTableOk s) :
    othersOf u (resp.clarifyingQuestions.foldl (processQuestion now u)
      (resp.relationships.foldl (processRelationship now u)
        (resp.entities.foldl (processEntity now u)
          (resp.priorities.foldl (insertPriority u entry (atMidnight now) now) s))))
      = othersOf u s := by
  have h1o := foldl_proj_const (othersOf u)
    (insertPriority u entry (atMidnight now) now)
    (insertPriority_others u entry (atMidnight now) now) resp.priorities s
  have h1k := (foldl_insertPriority_entityTable u entry (atMidnight now) now
    resp.priorities s).mpr hok
  obtain ⟨h2o, h2k⟩ := foldl_processEntity_scoped now u resp.entities _ h1k
  have h3o := foldl_proj_const (othersOf u) (processRelationship now u)
    (processRelationship_others now u) resp.relationships
    (resp.entities.foldl (processEntity now u)
      (resp.priorities.foldl (insertPriority u entry (atMidnight now) now) s))
  have h4o := foldl_proj_const (othersOf u) (processQuestion now u)
    (processQuestion_others now u) resp.clarifyingQuestions
    (resp.relationships.foldl (processRelationship now u)
      (resp.entities.foldl (processEntity now u)
        (resp.priorities.foldl (insertPriority u entry (atMidnight now) now) s)))
  exact h4o.trans (h3o.trans (h2o.trans h1o))

/-- The four write phases of entry analysis commute with restriction. -/
theorem analyze_pipeline_restrict (now : Timestamp) (u : String)
    (entry : JournalEntry) (resp : AnalysisResult) (s : Store) :
    (resp.clarifyingQuestions.foldl (processQuestion now u)
      (resp.relationships.foldl (processRelationship now u)
        (resp.entities.foldl (processEntity now u)
          (resp.priorities.foldl (insertPriority u entry (atMidnight now) now)
            (restrictTo u s)))))
      = restrictTo u (resp.clarifyingQuestions.foldl (processQuestion now u)
          (resp.relationships.foldl (processRelationship now u)
            (resp.entities.foldl (processEntity now u)
              (resp.priorities.foldl (insertPriority u entry (atMidnight now) now)
                s)))) := by
  rw [foldl_comm_g (restrictTo u) (insertPriority u entry (atMidnight now) now)
      (insertPriority_restrict u entry (atMidnight now) now)]
  rw [foldl_comm_g (restrictTo u) (processEntity now u) (processEntity_restrict now u)]
  rw [foldl_comm_g (restrictTo u) (processRelationship now u)
      (processRelationship_restrict now u)]
  rw [foldl_comm_g (restrictTo u) (processQuestion now u) (processQuestion_restrict now u)]

/-- `analyzeJournalEntry` leaves other users' rows intact. -/
theorem analyze_others (s : Store) (u : String) (eid : Nat) (now : Timestamp)
    (resp : AnalysisResult) (hok : EntityTableOk s) :
    othersOf u (analyzeJournalEntry s u eid now resp).store = othersOf u s := by
  unfold analyzeJournalEntry
  rcases hf : findEntry s u eid with _ | entry
  · rfl
  · dsimp only
    exact analyze_pipeline_others now u entry resp s hok

/-- `analyzeJournalEntry` run on the user's restriction of the store gives
the same result and the restriction of the same final store. -/
theorem analyze_restrict (s : Store) (u : String) (eid : Nat) (now : Timestamp)
    (resp : AnalysisResult) :
    analyzeJournalEntry (restrictTo u s) u eid now resp
      = { result := (analyzeJournalEntry s u eid now resp).result,
          store := restrictTo u (analyzeJournalEntry s u eid now resp).store,
          modelCalled := (analyzeJournalEntry s u eid now resp).modelCalled } := by
  unfold analyzeJournalEntry
  rw [findEntry_restrict]
  rcases hf : findEntry s u eid with _ | entry
  · rfl
  · dsimp only
    rw [analyze_pipeline_restrict]

/-- Summary‑path insertion leaves other users' rows intact. -/
theorem insertSummaryPriority_others (u : String) (date now : Timestamp)
    (ec : List String) (s : Store) (p : PriorityItem) :
    othersOf u (insertSummaryPriority u date now ec s p) = othersOf u s := by
  unfold insertSummaryPriority
  split
  · rfl
  · unfold othersOf
    simp

/-- Summary‑path insertion commutes with restriction. -/
theorem insertSummaryPriority_restrict (u : String) (date now : Timestamp)
    (ec : List String) (s : Store) (p : PriorityItem) :
    insertSummaryPriority u date now ec (restrictTo u s) p
      = restrictTo u (insertSummaryPriority u date now ec s p) := by
  unfold insertSummaryPriority
  split
  · rfl
  · unfold restrictTo
    simp

/-- `generateDailySummary` leaves other users' rows intact. -/
theorem summary_others (s : Store) (u : String) (date now : Timestamp)
    (resp : SummaryResult) :
    othersOf u (generateDailySummary s u date now resp).2.1 = othersOf u s := by
  unfold generateDailySummary
  dsimp only
  split
  · rfl
  · exact foldl_proj_const (othersOf u)
      (insertSummaryPriority u date now
        ((s.priorities.filter (fun p => p.userId == u)).map (fun p => p.content)))
      (insertSummaryPriority_others u date now _) resp.priorities s

/-- `generateDailySummary` on the user's restriction of the store gives
the same result and the restriction of the same final store. -/
theorem summary_restrict (s : Store) (u : String) (date now : Timestamp)
    (resp : SummaryResult) :
    generateDailySummary (restrictTo u s) u date now resp
      = ((generateDailySummary s u date now resp).1,
         restrictTo u (generateDailySummary s u date now resp).2.1,
         (generateDailySummary s u date now resp).2.2) := by
  unfold generateDailySummary
  dsimp only
  have hent : (restrictTo u s).journalEntries.filter (fun e => e.userId == u)
      = s.journalEntries.filter (fun e => e.userId == u) := by
    show ((s.journalEntries.filter _).filter _) = _
    rw [filter_over_user_filter u (fun e : JournalEntry => e.userId)
      (fun e => e.userId == u) (by intro a ha; simpa using ha) s.journalEntries]
  have hec : (restrictTo u s).priorities.filter (fun p => p.userId == u)
      = s.priorities.filter (fun p => p.userId == u) := by
    show ((s.priorities.filter _).filter _) = _
    rw [filter_over_user_filter u (fun p : Priority => p.userId)
      (fun p => p.userId == u) (by intro a ha; simpa using ha) s.priorities]
  rw [hent, hec]
  split
  · rfl
  · rw [foldl_comm_g (restrictTo u)
      (insertSummaryPriority u date now
        ((s.priorities.filter (fun p => p.userId == u)).map (fun p => p.content)))
      (insertSummaryPriority_restrict u date now _)]

/-- Equation: `mkQuestionRows` on a cons cell. -/
theorem mkQuestionRows_cons (u : String) (now : Timestamp) (q : QuestionItem)
    (qs : List QuestionItem) (nid : Nat) :
    mkQuestionRows u now (q :: qs) nid
      = { id := nid, question := q.question, answer := none, status := "pending",
          userId := u, createdAt := now, updatedAt := now }
          :: mkQuestionRows u now qs (nid + 1) := rfl

/-- Every generated question row belongs to the requesting user. -/
theorem mkQuestionRows_userId (u : String) (now : Timestamp) :
    ∀ (qs : List QuestionItem) (nid : Nat) (r : ClarifyingQuestion),
      r ∈ mkQuestionRows u now qs nid → r.userId = u := by
  intro qs
  induction qs with
  | nil => intro nid r hr; exact absurd hr (List.not_mem_nil r)
  | cons q qs ih =>
      intro nid r hr
      rw [mkQuestionRows_cons] at hr
      rcases List.mem_cons.mp hr with hr | hr
      · subst hr; rfl
      · exact ih (nid + 1) r hr

/-- Generated question rows all survive the user filter. -/
theorem mkQuestionRows_filter_user (u : String) (now : Timestamp)
    (qs : List QuestionItem) (nid : Nat) :
    (mkQuestionRows u now qs nid).filter (fun r => r.userId == u)
      = mkQuestionRows u now qs nid :=
  List.filter_eq_self.mpr (fun r hr => by
    rw [mkQuestionRows_userId u now qs nid r hr]; simp)

/-- Generated question rows never show up in other users' views. -/
theorem mkQuestionRows_filter_other (u : String) (now : Timestamp)
    (qs : List QuestionItem) (nid : Nat) :
    (mkQuestionRows u now qs nid).filter (fun r => r.userId != u) = [] :=
  List.filter_eq_nil_iff.mpr (fun r hr => by
    rw [mkQuestionRows_userId u now qs nid r hr]; simp)

/-- `generateClarifyingQuestions` leaves other users' rows intact. -/
theorem genq_others (s : Store) (u : String) (now : Timestamp)
    (qs : List QuestionItem) :
    othersOf u (generateClarifyingQuestions s u now qs).2.1 = othersOf u s := by
  unfold generateClarifyingQuestions
  dsimp only
  split
  · rfl
  · rw [foldl_insertGeneratedQuestion u now qs [] s]
    unfold othersOf
    simp [List.filter_append, mkQuestionRows_filter_other]

/-- `generateClarifyingQuestions` on the user's restriction of the store
gives the same result and the restriction of the same final store. -/
theorem genq_restrict (s : Store) (u : String) (now : Timestamp)
    (qs : List QuestionItem) :
    generateClarifyingQuestions (restrictTo u s) u now qs
      = ((generateClarifyingQuestions s u now qs).1,
         restrictTo u (generateClarifyingQuestions s u now qs).2.1,
         (generateClarifyingQuestions s u now qs).2.2) := by
  unfold generateClarifyingQuestions
  dsimp only
  have habs : (restrictTo u s).clarifyingQuestions.filter (fun q =>
      q.userId == u && q.status == "pending")
      = s.clarifyingQuestions.filter (fun q =>
        q.userId == u && q.status == "pending") := by
    show ((s.clarifyingQuestions.filter _).filter _) = _
    rw [filter_over_user_filter u (fun q : ClarifyingQuestion => q.userId)
      (fun q => q.userId == u && q.status == "pending")
      (by intro a ha; simp only [Bool.and_eq_true, beq_iff_eq] at ha; exact ha.1)
      s.clarifyingQuestions]
  rw [habs]
  split
  · rfl
  · rw [foldl_insertGeneratedQuestion u now qs [] (restrictTo u s),
        foldl_insertGeneratedQuestion u now qs [] s]
    unfold restrictTo
    simp [List.filter_append, mkQuestionRows_filter_user,
      mkQuestionRows_filter_other]

/-- The new‑entity loop of the answer path leaves other users' rows intact. -/
theorem foldl_enhanceNewEntity_others (n : Timestamp) (u : String)
    (ex : List ContextEntity) :
    ∀ (l : List NewEntityItem) (acc : List (String × Nat) × Store),
      othersOf u (l.foldl (enhanceNewEntity n u ex) acc).2 = othersOf u acc.2 :=
  foldl_proj_const (fun acc : List (String × Nat) × Store => othersOf u acc.2)
    (enhanceNewEntity n u ex) (fun acc a => by
      unfold enhanceNewEntity
      split
      · unfold othersOf
        simp
      · rfl)

/-- The entity‑update loop of the answer path leaves other users' rows
intact: its update targets come from the pre‑fetched list of the user's
own rows, and primary keys are unique. -/
theorem foldl_enhanceEntityUpdate_others (n : Timestamp) (u : String) (s0 : Store)
    (hnd : (s0.contextEntities.map (fun e => e.id)).Nodup)
    (ex : List ContextEntity)
    (hex : ∀ e ∈ ex, e ∈ s0.contextEntities ∧ e.userId = u) :
    ∀ (l : List EntityUpdateItem) (acc : List (String × Nat) × Store),
      othersOf u acc.2 = othersOf u s0 →
      othersOf u ((l.foldl (enhanceEntityUpdate n ex) acc).2) = othersOf u s0 := by
  intro l
  induction l with
  | nil => intro acc h; exact h
  | cons it l ih =>
      intro acc h
      rw [List.foldl_cons]
      apply ih
      unfold enhanceEntityUpdate
      rcases hf : ex.find? (fun e =>
          e.name.toLower == it.name.toLower && e.type == it.type) with _ | ex0
      · rw [hf]
        exact h
      · rw [hf]
        dsimp only
        obtain ⟨hex0mem, hex0u⟩ := hex ex0 (List.mem_of_find?_eq_some hf)
        have hcomp : acc.2.contextEntities.filter (fun r => r.userId != u)
            = s0.contextEntities.filter (fun r => r.userId != u) :=
          congrArg TableView.contextEntities h
        have hce : ((acc.2.contextEntities.map (fun e =>
              if (e.id == ex0.id) = true
              then { e with description := some it.updatedDescription, updatedAt := n }
              else e)).filter (fun r => r.userId != u))
            = acc.2.contextEntities.filter (fun r => r.userId != u) := by
          rw [filter_map_pres _ _ (fun e => by split <;> rfl)]
          have hfix : ∀ r ∈ acc.2.contextEntities.filter (fun r => r.userId != u),
              (if (r.id == ex0.id) = true
               then { r with description := some it.updatedDescription, updatedAt := n }
               else r) = r := by
            intro r hr
            rw [hcomp] at hr
            have hrmem := List.mem_filter.mp hr
            have hrne : r.userId ≠ u := by simpa using hrmem.2
            have hb : (r.id == ex0.id) = false := by
              rw [beq_eq_false_iff_ne]
              intro hide
              have heq := List.inj_on_of_nodup_map hnd hrmem.1 hex0mem hide
              rw [heq] at hrne
              exact hrne hex0u
            rw [hb]
            simp
          rw [List.map_congr_left hfix]
          simp
        exact (othersOf_set_ce u acc.2 _ hce).trans h

/-- The relationship loop of the answer path leaves other users' rows intact. -/
theorem foldl_enhanceRelationship_others (n : Timestamp) (u : String)
    (ex : List ContextEntity) (m : List (String × Nat)) :
    ∀ (l : List AnswerRelationshipItem) (st : Store),
      othersOf u (l.foldl (enhanceRelationship n u ex m) st) = othersOf u st :=
  foldl_proj_const (othersOf u) (enhanceRelationship n u ex m) (fun st a => by
    unfold enhanceRelationship
    dsimp only
    split
    · unfold othersOf
      simp
    · rfl)

/-- `enhanceContextFromAnswer` leaves other users' rows intact. -/
theorem enhance_others (s : Store) (u qn aa : String) (now : Timestamp)
    (rr : EnhanceResult)
    (hnd : (s.contextEntities.map (fun e => e.id)).Nodup) :
    othersOf u (enhanceContextFromAnswer s u qn aa now rr).2.1 = othersOf u s := by
  unfold enhanceContextFromAnswer
  dsimp only
  have hex : ∀ e ∈ (s.contextEntities.filter (fun e => e.userId == u)).take 30,
      e ∈ s.contextEntities ∧ e.userId = u := by
    intro e he
    have hem := List.mem_filter.mp (List.mem_of_mem_take he)
    exact ⟨hem.1, by simpa using hem.2⟩
  rw [foldl_enhanceRelationship_others]
  apply foldl_enhanceEntityUpdate_others now u s hnd _ hex
  rw [foldl_enhanceNewEntity_others]

/-- The new‑entity loop, restricted input form. -/
theorem enhanceNewEntity_restrict (n : Timestamp) (u : String)
    (ex : List ContextEntity) (acc : List (String × Nat) × Store)
    (it : NewEntityItem) :
    enhanceNewEntity n u ex (acc.1, restrictTo u acc.2) it
      = ((enhanceNewEntity n u ex acc it).1,
         restrictTo u (enhanceNewEntity n u ex acc it).2) := by
  unfold enhanceNewEntity
  rcases hf : ex.find? (fun e =>
      e.name.toLower == it.name.toLower && e.type == it.type) with _ | ex0
  · rw [hf]
    dsimp only
    unfold restrictTo mapSet
    simp
  · rw [hf]

/-- The entity‑update loop, restricted input form. -/
theorem enhanceEntityUpdate_restrict (n : Timestamp) (u : String)
    (ex : List ContextEntity) (acc : List (String × Nat) × Store)
    (it : EntityUpdateItem) :
    enhanceEntityUpdate n ex (acc.1, restrictTo u acc.2) it
      = ((enhanceEntityUpdate n ex acc it).1,
         restrictTo u (enhanceEntityUpdate n ex acc it).2) := by
  unfold enhanceEntityUpdate
  rcases hf : ex.find? (fun e =>
      e.name.toLower == it.name.toLower && e.type == it.type) with _ | ex0
  · rw [hf]
  · rw [hf]
    dsimp only
    unfold restrictTo
    dsimp only
    rw [filter_map_pres _ _ (fun e => by split <;> rfl)]

/-- The relationship loop, restricted input form. -/
theorem enhanceRelationship_restrict (n : Timestamp) (u : String)
    (ex : List ContextEntity) (m : List (String × Nat)) (st : Store)
    (it : AnswerRelationshipItem) :
    enhanceRelationship n u ex m (restrictTo u st) it
      = restrictTo u (enhanceRelationship n u ex m st it) := by
  unfold enhanceRelationship
  dsimp only
  split
  · unfold restrictTo
    simp
  · rfl

/-- Fold form of `enhanceNewEntity_restrict`. -/
theorem foldl_enhanceNewEntity_restrict (n : Timestamp) (u : String)
    (ex : List ContextEntity) (l : List NewEntityItem)
    (m : List (String × Nat)) (st : Store) :
    l.foldl (enhanceNewEntity n u ex) (m, restrictTo u st)
      = ((l.foldl (enhanceNewEntity n u ex) (m, st)).1,
         restrictTo u (l.foldl (enhanceNewEntity n u ex) (m, st)).2) :=
  foldl_comm_g (fun a : List (String × Nat) × Store => (a.1, restrictTo u a.2))
    (enhanceNewEntity n u ex) (enhanceNewEntity_restrict n u ex) l (m, st)

/-- Fold form of `enhanceEntityUpdate_restrict`. -/
theorem foldl_enhanceEntityUpdate_restrict (n : Timestamp) (u : String)
    (ex : List ContextEntity) (l : List EntityUpdateItem)
    (m : List (String × Nat)) (st : Store) :
    l.foldl (enhanceEntityUpdate n ex) (m, restrictTo u st)
      = ((l.foldl (enhanceEntityUpdate n ex) (m, st)).1,
         restrictTo u (l.foldl (enhanceEntityUpdate n ex) (m, st)).2) :=
  foldl_comm_g (fun a : List (String × Nat) × Store => (a.1, restrictTo u a.2))
    (enhanceEntityUpdate n ex) (enhanceEntityUpdate_restrict n u ex) l (m, st)

/-- Fold form of `enhanceRelationship_restrict`. -/
theorem foldl_enhanceRelationship_restrict (n : Timestamp) (u : String)
    (ex : List ContextEntity) (m : List (String × Nat))
    (l : List AnswerRelationshipItem) (st : Store) :
    l.foldl (enhanceRelationship n u ex m) (restrictTo u st)
      = restrictTo u (l.foldl (enhanceRelationship n u ex m) st) :=
  foldl_comm_g (restrictTo u) (enhanceRelationship n u ex m)
    (enhanceRelationship_restrict n u ex m) l st

/-- `enhanceContextFromAnswer` on the user's restriction of the store
gives the same result and the restriction of the same final store. -/
theorem enhance_restrict (s : Store) (u qn aa : String) (now : Timestamp)
    (rr : EnhanceResult) :
    enhanceContextFromAnswer (restrictTo u s) u qn aa now rr
      = ((enhanceContextFromAnswer s u qn aa now rr).1,
         restrictTo u (enhanceContextFromAnswer s u qn aa now rr).2.1,
         (enhanceContextFromAnswer s u qn aa now rr).2.2) := by
  unfold enhanceContextFromAnswer
  dsimp only
  have hexeq : (restrictTo u s).contextEntities.filter (fun e => e.userId == u)
      = s.contextEntities.filter (fun e => e.userId == u) := by
    show ((s.contextEntities.filter _).filter _) = _
    rw [filter_over_user_filter u (fun e : ContextEntity => e.userId)
      (fun e => e.userId == u) (by intro a ha; simpa using ha) s.contextEntities]
  rw [hexeq]
  rw [foldl_enhanceNewEntity_restrict now u _ rr.newEntities [] s]
  rw [foldl_enhanceEntityUpdate_restrict now u _ rr.entityUpdates _ _]
  rw [foldl_enhanceRelationship_restrict now u _ _ rr.relationships _]

/-- `answerClarifyingQuestion` leaves other users' rows intact. -/
theorem answer_others (s : Store) (u : String) (qid : Nat) (a : String)
    (now : Timestamp) (rr : EnhanceResult)
    (hnd : (s.contextEntities.map (fun e => e.id)).Nodup) :
    othersOf u (answerClarifyingQuestion s u qid a now rr).2.1 = othersOf u s := by
  unfold answerClarifyingQuestion
  dsimp only
  rcases hh : (s.clarifyingQuestions.filter (fun q =>
      q.id == qid && q.userId == u)).head? with _ | q0
  · rw [hh]
  · rw [hh]
    dsimp only
    have h1 : othersOf u { s with
        clarifyingQuestions := s.clarifyingQuestions.map (fun q =>
          if (q.id == qid && q.userId == u) = true
          then { q with answer := some a, status := "answered", updatedAt := now }
          else q) } = othersOf u s := by
      apply othersOf_set_cq
      rw [filter_map_pres _ _ (fun q => by split <;> rfl)]
      have hfix : ∀ r ∈ s.clarifyingQuestions.filter (fun r => r.userId != u),
          (if (r.id == qid && r.userId == u) = true
           then { r with answer := some a, status := "answered", updatedAt := now }
           else r) = r := by
        intro r hr
        have hrne : r.userId ≠ u := by simpa using (List.mem_filter.mp hr).2
        have hb : (r.userId == u) = false := beq_eq_false_iff_ne.mpr hrne
        rw [hb, Bool.and_false]
        simp
      rw [List.map_congr_left hfix]
      simp
    exact (enhance_others { s with
        clarifyingQuestions := s.clarifyingQuestions.map (fun q =>
          if (q.id == qid && q.userId == u) = true
          then { q with answer := some a, status := "answered", updatedAt := now }
          else q) } u q0.question a now rr hnd).trans h1

/-- `answerClarifyingQuestion` on the user's restriction of the store
gives the same result and the restriction of the same final store. -/
theorem answer_restrict (s : Store) (u : String) (qid : Nat) (a : String)
    (now : Timestamp) (rr : EnhanceResult) :
    answerClarifyingQuestion (restrictTo u s) u qid a now rr
      = ((answerClarifyingQuestion s u qid a now rr).1,
         restrictTo u (answerClarifyingQuestion s u qid a now rr).2.1,
         (answerClarifyingQuestion s u qid a now rr).2.2) := by
  unfold answerClarifyingQuestion
  dsimp only
  have habs : (restrictTo u s).clarifyingQuestions.filter (fun q =>
      q.id == qid && q.userId == u)
      = s.clarifyingQuestions.filter (fun q => q.id == qid && q.userId == u) := by
    show ((s.clarifyingQuestions.filter _).filter _) = _
    rw [filter_over_user_filter u (fun q : ClarifyingQuestion => q.userId)
      (fun q => q.id == qid && q.userId == u)
      (by intro b hb; simp only [Bool.and_eq_true, beq_iff_eq] at hb; exact hb.2)
      s.clarifyingQuestions]
  rw [habs]
  rcases hh : (s.clarifyingQuestions.filter (fun q =>
      q.id == qid && q.userId == u)).head? with _ | q0
  · rw [hh]
  · rw [hh]
    dsimp only
    have hS1 : ({ restrictTo u s with
        clarifyingQuestions := (restrictTo u s).clarifyingQuestions.map (fun q =>
          if (q.id == qid && q.userId == u) = true
          then { q with answer := some a, status := "answered", updatedAt := now }
          else q) } : Store)
        = restrictTo u { s with
            clarifyingQuestions := s.clarifyingQuestions.map (fun q =>
              if (q.id == qid && q.userId == u) = true
              then { q with answer := some a, status := "answered", updatedAt := now }
              else q) } := by
      unfold restrictTo
      dsimp only
      rw [filter_map_pres _ _ (fun q => by split <;> rfl)]
    rw [hS1, enhance_restrict]

/-- C9: every operation of the AI pipeline is user‑scoped.  For each of
`analyzeJournalEntry`, `generateDailySummary`, `generateClarifyingQuestions`,
`answerClarifyingQuestion` and `enhanceContextFromAnswer`, (i) the rows of
every other user are exactly the same after the operation as before — no
write escapes the requesting user — and (ii) running the operation on the
store restricted to the user's own rows yields the same result, the same
model‑invocation behaviour, and the restriction of the same final store —
every read is filtered by the requesting `userId`.  The hypothesis is
database well‑formedness of the entity table (unique primary keys, serial
counter ahead), needed because two description updates address rows by id
alone. -/
theorem user_scoping (s : Store) (u : String) (eid qid : Nat)
    (now dateS nowS nowQ nowA nowE : Timestamp)
    (resp : AnalysisResult) (respS : SummaryResult) (qs : List QuestionItem)
    (ansA qn aa : String) (respA respE : EnhanceResult)
    (hok : EntityTableOk s) :
    othersOf u (analyzeJournalEntry s u eid now resp).store = othersOf u s ∧
    analyzeJournalEntry (restrictTo u s) u eid now resp
      = { result := (analyzeJournalEntry s u eid now resp).result,
          store := restrictTo u (analyzeJournalEntry s u eid now resp).store,
          modelCalled := (analyzeJournalEntry s u eid now resp).modelCalled } ∧
    othersOf u (generateDailySummary s u dateS nowS respS).2.1 = othersOf u s ∧
    generateDailySummary (restrictTo u s) u dateS nowS respS
      = ((generateDailySummary s u dateS nowS respS).1,
         restrictTo u (generateDailySummary s u dateS nowS respS).2.1,
         (generateDailySummary s u dateS nowS respS).2.2) ∧
    othersOf u (generateClarifyingQuestions s u nowQ qs).2.1 = othersOf u s ∧
    generateClarifyingQuestions (restrictTo u s) u nowQ qs
      = ((generateClarifyingQuestions s u nowQ qs).1,
         restrictTo u (generateClarifyingQuestions s u nowQ qs).2.1,
         (generateClarifyingQuestions s u nowQ qs).2.2) ∧
    othersOf u (answerClarifyingQuestion s u qid ansA nowA respA).2.1
      = othersOf u s ∧
    answerClarifyingQuestion (restrictTo u s) u qid ansA nowA respA
      = ((answerClarifyingQuestion s u qid ansA nowA respA).1,
         restrictTo u (answerClarifyingQuestion s u qid ansA nowA respA).2.1,
         (answerClarifyingQuestion s u qid ansA nowA respA).2.2) ∧
    othersOf u (enhanceContextFromAnswer s u qn aa nowE respE).2.1
      = othersOf u s ∧
    enhanceContextFromAnswer (restrictTo u s) u qn aa nowE respE
      = ((enhanceContextFromAnswer s u qn aa nowE respE).1,
         restrictTo u (enhanceContextFromAnswer s u qn aa nowE respE).2.1,
         (enhanceContextFromAnswer s u qn aa nowE respE).2.2) :=
  ⟨analyze_others s u eid now resp hok,
   analyze_restrict s u eid now resp,
   summary_others s u dateS nowS respS,
   summary_restrict s u dateS nowS respS,
   genq_others s u nowQ qs,
   genq_restrict s u nowQ qs,
   answer_others s u qid ansA nowA respA hok.1,
   answer_restrict s u qid ansA nowA respA,
   enhance_others s u qn aa nowE respE hok.1,
   enhance_restrict s u qn aa nowE respE⟩

/-- C9, witness: the scoping theorem applied to the two‑user `storeC9`
with responses exercising every table. -/
theorem user_scoping_witness :
    othersOf "u" (analyzeJournalEntry storeC9 "u" 1 ⟨9, 3⟩ respC9).store
      = othersOf "u" storeC9 ∧
    analyzeJournalEntry (restrictTo "u" storeC9) "u" 1 ⟨9, 3⟩ respC9
      = { result := (analyzeJournalEntry storeC9 "u" 1 ⟨9, 3⟩ respC9).result,
          store := restrictTo "u" (analyzeJournalEntry storeC9 "u" 1 ⟨9, 3⟩ respC9).store,
          modelCalled := (analyzeJournalEntry storeC9 "u" 1 ⟨9, 3⟩ respC9).modelCalled } ∧
    othersOf "u" (generateDailySummary storeC9 "u" ⟨9, 0⟩ ⟨9, 4⟩ respC7).2.1
      = othersOf "u" storeC9 ∧
    generateDailySummary (restrictTo "u" storeC9) "u" ⟨9, 0⟩ ⟨9, 4⟩ respC7
      = ((generateDailySummary storeC9 "u" ⟨9, 0⟩ ⟨9, 4⟩ respC7).1,
         restrictTo "u" (generateDailySummary storeC9 "u" ⟨9, 0⟩ ⟨9, 4⟩ respC7).2.1,
         (generateDailySummary storeC9 "u" ⟨9, 0⟩ ⟨9, 4⟩ respC7).2.2) ∧
    othersOf "u" (generateClarifyingQuestions storeC9 "u" ⟨9, 5⟩
        [{ question := "Q9" }]).2.1 = othersOf "u" storeC9 ∧
    generateClarifyingQuestions (restrictTo "u" storeC9) "u" ⟨9, 5⟩
        [{ question := "Q9" }]
      = ((generateClarifyingQuestions storeC9 "u" ⟨9, 5⟩ [{ question := "Q9" }]).1,
         restrictTo "u" (generateClarifyingQuestions storeC9 "u" ⟨9, 5⟩
           [{ question := "Q9" }]).2.1,
         (generateClarifyingQuestions storeC9 "u" ⟨9, 5⟩ [{ question := "Q9" }]).2.2) ∧
    othersOf "u" (answerClarifyingQuestion storeC9 "u" 1 "A9" ⟨9, 6⟩ enhanceC9).2.1
      = othersOf "u" storeC9 ∧
    answerClarifyingQuestion (restrictTo "u" storeC9) "u" 1 "A9" ⟨9, 6⟩ enhanceC9
      = ((answerClarifyingQuestion storeC9 "u" 1 "A9" ⟨9, 6⟩ enhanceC9).1,
         restrictTo "u" (answerClarifyingQuestion storeC9 "u" 1 "A9" ⟨9, 6⟩ enhanceC9).2.1,
         (answerClarifyingQuestion storeC9 "u" 1 "A9" ⟨9, 6⟩ enhanceC9).2.2) ∧
    othersOf "u" (enhanceContextFromAnswer storeC9 "u" "q" "a" ⟨9, 7⟩ enhanceC9).2.1
      = othersOf "u" storeC9 ∧
    enhanceContextFromAnswer (restrictTo "u" storeC9) "u" "q" "a" ⟨9, 7⟩ enhanceC9
      = ((enhanceContextFromAnswer storeC9 "u" "q" "a" ⟨9, 7⟩ enhanceC9).1,
         restrictTo "u" (enhanceContextFromAnswer storeC9 "u" "q" "a" ⟨9, 7⟩ enhanceC9).2.1,
         (enhanceContextFromAnswer storeC9 "u" "q" "a" ⟨9, 7⟩ enhanceC9).2.2) :=
  user_scoping storeC9 "u" 1 1 ⟨9, 3⟩ ⟨9, 0⟩ ⟨9, 4⟩ ⟨9, 5⟩ ⟨9, 6⟩ ⟨9, 7⟩
    respC9 respC7 [{ question := "Q9" }] "A9" "q" "a" enhanceC9 enhanceC9
    (by decide)

end Inkling
